import Mathlib

/-!
Verification development for the scene-graph renderer core.

The TypeScript sources are embedded shallowly:
- JS numbers are modelled as exact rationals (`Q`); the claims settled here are
  structural (which computation runs, which fields change), not floating-point
  accuracy statements.
- JS bitmask enums become `Nat` constants combined with `|||`/`&&&`.
- Fallible code (assertTruthy) returns `Except AssertErr`.
- Mutable objects become explicit state records; the mutable node tree becomes
  either a rose tree (for single-subtree operations) or an id-indexed forest
  (for operations that walk parent pointers).
- Library helpers that live outside the excerpted sources (Matrix3d, bound and
  rect arithmetic, color premultiplication, Math.cos/Math.sin) are modelled
  from the specification; each such definition carries a doc comment starting
  with `Modelled from the spec:`.
-/

namespace Renderer

abbrev Q := Rat

/-! ## UpdateType bit constants (from the CoreNode source enum) -/

namespace UpdateType

def Children : Nat := 1
def ScaleRotate : Nat := 2
def Local : Nat := 4
def Global : Nat := 8
def Clipping : Nat := 16
def CalculatedZIndex : Nat := 32
def ZIndexSortedChildren : Nat := 64
def PremultipliedColors : Nat := 128
def WorldAlpha : Nat := 256
def RenderState : Nat := 512
def IsRenderable : Nat := 1024
def RenderTexture : Nat := 2048
def ParentRenderTexture : Nat := 4096
def NoneT : Nat := 0
def All : Nat := 8191

end UpdateType

/-! ## Texture and texture-option state (narrow interface used by CoreNode) -/

/-- Texture handle as seen by CoreNode: only its (optional) dimensions are read
by the code embedded here. -/
structure TexData where
  width : Q
  height : Q
deriving DecidableEq, Repr

/-- Resize mode discriminator: the code only tests for the contain type. -/
inductive ResizeModeT where
  | contain
  | other
deriving DecidableEq, Repr

structure TextureOptions where
  preload : Bool
  resizeMode : Option ResizeModeT
deriving DecidableEq, Repr

/-! ## CoreNodeProps (writable props of a node, from the source interface) -/

structure CoreNodeProps where
  x : Q
  y : Q
  width : Q
  height : Q
  alpha : Q
  clipping : Bool
  color : Nat
  colorTop : Nat
  colorBottom : Nat
  colorLeft : Nat
  colorRight : Nat
  colorTl : Nat
  colorTr : Nat
  colorBr : Nat
  colorBl : Nat
  zIndex : Q
  zIndexLocked : Q
  scaleX : Q
  scaleY : Q
  mountX : Q
  mountY : Q
  pivotX : Q
  pivotY : Q
  rotation : Q
  rtt : Bool
  texture : Option (Option TexData)
  textureOptions : TextureOptions
  shader : Nat
deriving DecidableEq, Repr

namespace CoreNodeProps

/-- Baseline props value used to build concrete nodes in examples: all
geometry and colors zero, default shader id 0, no texture. -/
def base : CoreNodeProps where
  x := 0
  y := 0
  width := 0
  height := 0
  alpha := 1
  clipping := false
  color := 0
  colorTop := 0
  colorBottom := 0
  colorLeft := 0
  colorRight := 0
  colorTl := 0
  colorTr := 0
  colorBr := 0
  colorBl := 0
  zIndex := 0
  zIndexLocked := 0
  scaleX := 1
  scaleY := 1
  mountX := 0
  mountY := 0
  pivotX := 1/2
  pivotY := 1/2
  rotation := 0
  rtt := false
  texture := none
  textureOptions := { preload := false, resizeMode := none }
  shader := 0

end CoreNodeProps

/-! ## checkRenderProps (CoreNode.checkRenderProps, translated line by line)

The texture field of the props is `Option (Option TexData)`: the outer layer
is JS null vs non-null (what `if (this.props.texture)` tests), the inner layer
is whether the texture already has known dimensions.
-/

def checkRenderProps (defShaderCtr : Nat) (p : CoreNodeProps) : Bool :=
  if p.texture.isSome then true
  else if p.width == 0 || p.height == 0 then false
  else if p.shader == defShaderCtr then true
  else if p.clipping then true
  else if p.color != 0 then true
  else if p.colorTop != 0 then true
  else if p.colorBottom != 0 then true
  else if p.colorLeft != 0 then true
  else if p.colorRight != 0 then true
  else if p.colorTl != 0 then true
  else if p.colorTr != 0 then true
  else if p.colorBl != 0 then true
  else if p.colorBr != 0 then true
  else false

/-- Modelled from the spec: render eligibility as the specification words it —
a node is render-eligible if it has an attached texture, or it has nonzero
width and height and (uses a non-default shader, or clips, or any of its 9
color channels is nonzero). Stated for comparison with `checkRenderProps`. -/
def checkRenderPropsSpec (defShaderCtr : Nat) (p : CoreNodeProps) : Bool :=
  p.texture.isSome ||
    (p.width != 0 && p.height != 0 &&
      (p.shader != defShaderCtr || p.clipping ||
        p.color != 0 || p.colorTop != 0 || p.colorBottom != 0 ||
        p.colorLeft != 0 || p.colorRight != 0 ||
        p.colorTl != 0 || p.colorTr != 0 || p.colorBl != 0 || p.colorBr != 0))

/-! ## createIndexBuffer (RendererUtils.createIndexBuffer)

The Uint16Array is modelled as an `Array Nat` whose writes store values
modulo 2 to the 16 and ignore out-of-bounds indices, matching typed-array
semantics. The source loop `for (i = 0, j = 0; i < maxQuads; i += 6, j += 4)`
is translated with an explicit iteration budget; a budget of `maxQuads`
iterations strictly exceeds the number of loop iterations (the loop runs at
most ceil(maxQuads / 6) times), so the translation executes the loop exactly
as the source does. -/

def writeQuadIndices (arr : Array Nat) (i j : Nat) : Array Nat :=
  ((((((arr.setD i (j % 65536)).setD (i + 1) ((j + 1) % 65536)).setD
      (i + 2) ((j + 2) % 65536)).setD (i + 3) ((j + 2) % 65536)).setD
      (i + 4) ((j + 1) % 65536)).setD (i + 5) ((j + 3) % 65536))

def fillIndices (maxQuads : Nat) : Nat → Nat → Nat → Array Nat → Array Nat
  | 0, _, _, arr => arr
  | fuel + 1, i, j, arr =>
    if i < maxQuads then
      fillIndices maxQuads fuel (i + 6) (j + 4) (writeQuadIndices arr i j)
    else arr

def createIndexBufferIndices (size : Nat) : Array Nat :=
  let maxQuads := size / 80
  fillIndices maxQuads maxQuads 0 0 (Array.mkArray (maxQuads * 6) 0)

/-- Modelled from the spec: the six indices claimed for quad q, namely
(4q, 4q+1, 4q+2, 4q+2, 4q+1, 4q+3). -/
def quadIndicesSpec (q : Nat) : List Nat :=
  [4 * q, 4 * q + 1, 4 * q + 2, 4 * q + 2, 4 * q + 1, 4 * q + 3]

/-! ## WebGlCoreRenderOp.addTexture -/

structure WebGlCoreRenderOp where
  textures : List Nat
  maxTextures : Nat
deriving DecidableEq, Repr

/-- A freshly constructed render op: empty texture list. -/
def WebGlCoreRenderOp.fresh (maxTextures : Nat) : WebGlCoreRenderOp :=
  { textures := [], maxTextures := maxTextures }

/-- Translation of addTexture. The JS findIndex / -1 sentinel pair is embedded
as an Option-valued index search; 0xffffffff is the cannot-batch sentinel. -/
def WebGlCoreRenderOp.addTexture (op : WebGlCoreRenderOp) (texture : Nat) :
    Nat × WebGlCoreRenderOp :=
  match op.textures.findIdx? (fun t => t == texture) with
  | some existingIdx => (existingIdx, op)
  | none =>
    let newIdx := op.textures.length
    if op.maxTextures ≤ newIdx then (0xffffffff, op)
    else (newIdx, { op with textures := op.textures ++ [texture] })

/-- Sequence of addTexture calls, collecting the returned slot indices. -/
def WebGlCoreRenderOp.addTextures (op : WebGlCoreRenderOp) :
    List Nat → List Nat × WebGlCoreRenderOp
  | [] => ([], op)
  | t :: ts =>
    let r := op.addTexture t
    let rest := r.2.addTextures ts
    (r.1 :: rest.1, rest.2)

/-! ## Generic helper lemmas -/

theorem iteTrueElse (c : Prop) [Decidable c] (b : Bool) :
    ((if c then true else b) = true) ↔ (c ∨ b = true) := by
  split <;> simp [*]

theorem iteFalseElse (c : Prop) [Decidable c] (b : Bool) :
    ((if c then false else b) = true) ↔ (¬c ∧ b = true) := by
  split <;> simp [*]

/-! ## Helper lemmas for addTexture -/

theorem findIdx?_beq_eq_none {ts : List Nat} {x : Nat} (hx : x ∉ ts) :
    ts.findIdx? (fun t => t == x) = none := by
  rw [List.findIdx?_eq_none_iff]
  intro t ht
  simp only [beq_eq_false_iff_ne, ne_eq]
  rintro rfl
  exact hx ht

theorem findIdx?_beq_get {ts : List Nat} (hnd : ts.Nodup) (i : Nat)
    (hi : i < ts.length) :
    ts.findIdx? (fun t => t == ts[i]) = some i := by
  induction ts generalizing i with
  | nil => simp at hi
  | cons a l ih =>
    rcases List.nodup_cons.mp hnd with ⟨ha, hl⟩
    cases i with
    | zero => simp
    | succ j =>
      have hj : j < l.length := Nat.lt_of_succ_lt_succ hi
      have hget : (a :: l)[j + 1] = l[j] := by simp
      rw [hget]
      have hne : ¬(a = l[j]) := by
        rintro rfl
        exact ha (List.getElem_mem hj)
      simp [List.findIdx?_cons, hne, ih hl j hj]

theorem addTextures_go (M : Nat) (done ts : List Nat)
    (hnd : (done ++ ts).Nodup) (hle : done.length + ts.length ≤ M) :
    (WebGlCoreRenderOp.addTextures { textures := done, maxTextures := M } ts) =
      (List.range' done.length ts.length, { textures := done ++ ts, maxTextures := M }) := by
  induction ts generalizing done with
  | nil => simp [WebGlCoreRenderOp.addTextures]
  | cons t ts ih =>
    have htdone : t ∉ done := by
      intro hmem
      have := List.disjoint_of_nodup_append hnd
      exact this hmem (List.mem_cons_self t ts)
    have hfind : done.findIdx? (fun a => a == t) = none := findIdx?_beq_eq_none htdone
    have hlt : done.length < M := by
      have := hle
      simp only [List.length_cons] at this
      omega
    have hnd2 : ((done ++ [t]) ++ ts).Nodup := by
      simpa [List.append_assoc] using hnd
    have hle2 : (done ++ [t]).length + ts.length ≤ M := by
      simp only [List.length_append, List.length_cons, List.length_nil] at hle ⊢
      omega
    have ihres := ih (done ++ [t]) hnd2 hle2
    simp only [WebGlCoreRenderOp.addTextures, WebGlCoreRenderOp.addTexture, hfind]
    rw [if_neg (by omega)]
    simp only [ihres]
    simp [List.range'_succ, List.append_assoc]

/-! ## Matrix3d and geometry helpers -/

/-- Modelled from the spec: Transform2D (the source calls it Matrix3d), a 2D
affine matrix with components ta tb tx over tc td ty, mapping a point (x, y)
to (ta x + tb y + tx, tc x + td y + ty). The Matrix3d library file is outside
the excerpted sources; compose, translate, scale, rotate and copy are modelled
from the specification. -/
structure Matrix3d where
  ta : Q
  tb : Q
  tc : Q
  td : Q
  tx : Q
  ty : Q
deriving DecidableEq, Repr, Inhabited

namespace Matrix3d

def identity : Matrix3d := ⟨1, 0, 0, 1, 0, 0⟩

/-- Modelled from the spec: affine composition (this applied after other). -/
def multiply (m o : Matrix3d) : Matrix3d where
  ta := m.ta * o.ta + m.tb * o.tc
  tb := m.ta * o.tb + m.tb * o.td
  tc := m.tc * o.ta + m.td * o.tc
  td := m.tc * o.tb + m.td * o.td
  tx := m.ta * o.tx + m.tb * o.ty + m.tx
  ty := m.tc * o.tx + m.td * o.ty + m.ty

/-- Modelled from the spec: a fresh translation matrix. -/
def translate (x y : Q) : Matrix3d := ⟨1, 0, 0, 1, x, y⟩

/-- Modelled from the spec: in-place translate, i.e. compose with a
translation on the right. -/
def translateBy (m : Matrix3d) (x y : Q) : Matrix3d := m.multiply (translate x y)

/-- Modelled from the spec: in-place scale, composing with a scale matrix. -/
def scaleBy (m : Matrix3d) (sx sy : Q) : Matrix3d := m.multiply ⟨sx, 0, 0, sy, 0, 0⟩

/-- Modelled from the spec: a fresh rotation matrix; the cosine and sine of
the angle are supplied by the caller (Math.cos and Math.sin are opaque to this
embedding). -/
def rotateWith (cosv sinv : Q) : Matrix3d := ⟨cosv, -sinv, sinv, cosv, 0, 0⟩

/-- Modelled from the spec: copy produces a matrix with the same components. -/
def copy (m : Matrix3d) : Matrix3d := m

theorem identity_multiply (m : Matrix3d) : identity.multiply m = m := by
  cases m
  simp [identity, multiply]

end Matrix3d

/-- Render coordinates: the four transformed corners (from RenderCoords). -/
structure RenderCoords where
  x1 : Q
  y1 : Q
  x2 : Q
  y2 : Q
  x3 : Q
  y3 : Q
  x4 : Q
  y4 : Q
deriving DecidableEq, Repr

/-- Modelled from the spec: RenderCoords.translate packs the four corners. -/
def RenderCoords.translate (x1 y1 x2 y2 x3 y3 x4 y4 : Q) : RenderCoords :=
  ⟨x1, y1, x2, y2, x3, y3, x4, y4⟩

/-- Axis-aligned bound with two corner points (from lib Bound). -/
structure Bound where
  x1 : Q
  y1 : Q
  x2 : Q
  y2 : Q
deriving DecidableEq, Repr

/-- Modelled from the spec: createBound assigns the four coordinates of an
axis-aligned bound (no sorting of the corners is performed). -/
def createBound (x1 y1 x2 y2 : Q) : Bound := ⟨x1, y1, x2, y2⟩

/-- Modelled from the spec: containment test, bound b1 lies inside bound b2. -/
def boundInsideBound (b1 b2 : Bound) : Bool :=
  b2.x1 ≤ b1.x1 && b2.y1 ≤ b1.y1 && b1.x2 ≤ b2.x2 && b1.y2 ≤ b2.y2

/-- Clipping rectangle with validity flag (RectWithValid). -/
structure RectWithValid where
  x : Q
  y : Q
  width : Q
  height : Q
  valid : Bool
deriving DecidableEq, Repr

/-- Modelled from the spec: geometric intersection of two rectangles; the
validity flag of the result is managed by the caller, as in the source. -/
def intersectRect (a b : RectWithValid) : RectWithValid :=
  let x := max a.x b.x
  let y := max a.y b.y
  { x := x
    y := y
    width := min (a.x + a.width) (b.x + b.width) - x
    height := min (a.y + a.height) (b.y + b.height) - y
    valid := true }

/-- Modelled from the spec: copy the geometric fields of a rectangle. -/
def copyRect (a : RectWithValid) : RectWithValid :=
  { x := a.x, y := a.y, width := a.width, height := a.height, valid := a.valid }

/-! ## calculateRenderCoords and updateBoundingRect (CoreNode source) -/

def calculateRenderCoords (width height : Q) (t : Matrix3d) : RenderCoords :=
  if t.tb == 0 && t.tc == 0 then
    let minX := t.tx
    let maxX := t.tx + width * t.ta
    let minY := t.ty
    let maxY := t.ty + height * t.td
    RenderCoords.translate minX minY maxX minY maxX maxY minX maxY
  else
    RenderCoords.translate
      t.tx t.ty
      (t.tx + width * t.ta) (t.ty + width * t.tc)
      (t.tx + width * t.ta + height * t.tb) (t.ty + width * t.tc + height * t.td)
      (t.tx + height * t.tb) (t.ty + height * t.td)

def updateBoundingRect (t : Matrix3d) (rc : RenderCoords) : Bound :=
  if t.tb == 0 || t.tc == 0 then
    createBound rc.x1 rc.y1 rc.x3 rc.y3
  else
    createBound
      (min (min (min rc.x1 rc.x2) rc.x3) rc.x4)
      (min (min (min rc.y1 rc.y2) rc.y3) rc.y4)
      (max (max (max rc.x1 rc.x2) rc.x3) rc.x4)
      (max (max (max rc.y1 rc.y2) rc.y3) rc.y4)

/-- Modelled from the spec: the render bound the claim expects on the rotated
path, the min and max over all four transformed corner coordinates. -/
def renderBoundSpec (rc : RenderCoords) : Bound :=
  createBound
    (min (min (min rc.x1 rc.x2) rc.x3) rc.x4)
    (min (min (min rc.y1 rc.y2) rc.y3) rc.y4)
    (max (max (max rc.x1 rc.x2) rc.x3) rc.x4)
    (max (max (max rc.y1 rc.y2) rc.y3) rc.y4)

/-- Render bound as update computes it: render coords from the global
transform, then the bounding rect. -/
def renderBoundOf (width height : Q) (t : Matrix3d) : Bound :=
  updateBoundingRect t (calculateRenderCoords width height t)

/-! ## Global-transform composition (the Global branch of CoreNode.update) -/

/-- Parent data read by the Global branch of update. -/
structure ParentGlobalEnv where
  globalTransform : Option Matrix3d
  rtt : Bool
deriving DecidableEq, Repr

/-- Translation of CoreNode.update's Global branch: copy the parent's global
transform (falling back to the node's local transform when there is no parent
or the parent has no global transform yet), reset the base to the identity
when the node sits inside a render texture and its direct parent is the rtt
root, then right-multiply by the local transform when a parent exists. -/
def computeGlobalTransform (localTransform : Matrix3d)
    (parent : Option ParentGlobalEnv) (parentHasRenderTexture : Bool) : Matrix3d :=
  let base := Matrix3d.copy
    (match parent with
     | none => localTransform
     | some p =>
       match p.globalTransform with
       | some pg => pg
       | none => localTransform)
  let base :=
    if parentHasRenderTexture &&
        (match parent with
         | some p => p.rtt
         | none => false) then
      Matrix3d.identity
    else base
  match parent with
  | some _ => base.multiply localTransform
  | none => base

/-! ## Id-indexed forest model (setUpdateType, setRTTUpdates, the parent setter)

These operations walk mutable parent pointers, so the tree is modelled as a
list of node records indexed by id. The recursive parent walks of the source
terminate because the tree is acyclic; the embedding makes the recursion
explicit with a step budget, and theorems assume the budget covers the
ancestor chain (chainClosed), which is exactly the acyclicity the source
relies on. -/

/-- Modelled from the spec: cosine and sine as opaque pure functions
(Math.cos and Math.sin are outside the embedded sources). -/
structure TrigCtx where
  cosF : Q → Q
  sinF : Q → Q

/-- State of one CoreNode as far as the parent-pointer operations read or
write it: tree links, the pending update mask, RTT bookkeeping, and the
scale/rotate props with their cached transform (the parent setter ends by
recomputing the scale/rotate transform). -/
structure FNode where
  parent : Option Nat
  children : List Nat
  updateType : Nat
  hasRTTupdates : Bool
  parentHasRenderTexture : Bool
  rtt : Bool
  rotation : Q
  scaleX : Q
  scaleY : Q
  scaleRotateTransform : Matrix3d
deriving DecidableEq, Repr, Inhabited

structure Forest where
  nodes : List FNode
deriving DecidableEq, Repr

def Forest.size (s : Forest) : Nat := s.nodes.length

def Forest.node (s : Forest) (i : Nat) : FNode := s.nodes.getD i default

def Forest.modify (s : Forest) (i : Nat) (f : FNode → FNode) : Forest :=
  ⟨s.nodes.set i (f (s.node i))⟩

/-- Translation of CoreNode.setRTTUpdates: set hasRTTupdates and recurse into
the parent; the type argument is carried but unused, as in the source. -/
def setRTTUpdatesF (s : Forest) : Nat → Nat → Nat → Forest
  | 0, _, _ => s
  | fuel + 1, i, t =>
    let s1 := s.modify i (fun n => { n with hasRTTupdates := true })
    match (s1.node i).parent with
    | some p => setRTTUpdatesF s1 fuel p t
    | none => s1

/-- First statement of setUpdateType: this.updateType |= type. -/
def orMaskAt (s : Forest) (i t : Nat) : Forest :=
  s.modify i fun nd => { nd with updateType := nd.updateType ||| t }

/-- Last statement of setUpdateType: if the node sits under a render texture,
forward the mask to setRTTUpdates. -/
def rttForward (s2 : Forest) (fuel i t : Nat) : Forest :=
  if (s2.node i).parentHasRenderTexture then setRTTUpdatesF s2 fuel i t else s2

/-- Translation of CoreNode.setUpdateType: OR the mask into the node's pending
flags; if there is a parent that lacks the Children flag, propagate Children
to it; finally, if the node sits under a render texture, forward the mask to
setRTTUpdates. -/
def setUpdateTypeF (s : Forest) : Nat → Nat → Nat → Forest
  | 0, _, _ => s
  | fuel + 1, i, t =>
    rttForward
      (match ((orMaskAt s i t).node i).parent with
       | some p =>
         if ((orMaskAt s i t).node p).updateType &&& UpdateType.Children = 0 then
           setUpdateTypeF (orMaskAt s i t) fuel p UpdateType.Children
         else orMaskAt s i t
       | none => orMaskAt s i t)
      (fuel + 1) i t

/-- Ancestor chain of a node: parent, grandparent, and so on, within the step
budget. -/
def ancChain (s : Forest) : Nat → Nat → List Nat
  | 0, _ => []
  | fuel + 1, i =>
    match (s.node i).parent with
    | some p => p :: ancChain s fuel p
    | none => []

/-- True when the walk up the parent pointers from i reaches a root within the
step budget; this is the acyclicity the source relies on for termination. -/
def chainClosed (s : Forest) : Nat → Nat → Bool
  | 0, i => (s.node i).parent == none
  | fuel + 1, i =>
    match (s.node i).parent with
    | some p => chainClosed s fuel p
    | none => true

/-- The Children flag of a node's pending mask is set. -/
def hasCh (s : Forest) (i : Nat) : Bool :=
  (s.node i).updateType &&& UpdateType.Children != 0

/-- Translation of CoreNode.updateScaleRotateTransform. -/
def updateScaleRotateTransformF (ctx : TrigCtx) (n : FNode) : FNode :=
  { n with
    scaleRotateTransform :=
      (Matrix3d.rotateWith (ctx.cosF n.rotation) (ctx.sinF n.rotation)).scaleBy
        n.scaleX n.scaleY }

inductive AssertErr where
  | nodeNotFoundInOldParent
deriving DecidableEq, Repr

/-- Detach half of the parent setter: look up the node in the old parent's
children (fatal assertion when absent), splice it out, and mark the old parent
with Children and ZIndexSortedChildren. -/
def detachStep (s1 : Forest) (oldParent : Option Nat) (n : Nat) :
    Except AssertErr Forest :=
  match oldParent with
  | some op =>
    match (s1.node op).children.findIdx? (fun c => c == n) with
    | none => Except.error AssertErr.nodeNotFoundInOldParent
    | some index =>
      Except.ok (setUpdateTypeF
        (s1.modify op fun nd => { nd with children := nd.children.eraseIdx index })
        (s1.size + 1) op (UpdateType.Children ||| UpdateType.ZIndexSortedChildren))
  | none => Except.ok s1

/-- RTT forwarding at the end of the attach half: when the new parent is an
rtt root or sits inside a render texture, the node records a full RTT update
up its chain. -/
def attachRtt (s4 : Forest) (fuel n np : Nat) : Forest :=
  if (s4.node np).rtt || (s4.node np).parentHasRenderTexture then
    setRTTUpdatesF s4 fuel n UpdateType.All
  else s4

/-- Attach half of the parent setter: push onto the new parent's children,
give the node a full update, mark the new parent with Children and
ZIndexSortedChildren, and forward RTT updates when needed. -/
def attachStep (s3 : Forest) (n : Nat) (newParent : Option Nat) : Forest :=
  match newParent with
  | some np =>
    attachRtt
      (setUpdateTypeF
        (setUpdateTypeF
          (s3.modify np fun nd => { nd with children := nd.children ++ [n] })
          (s3.size + 1) n UpdateType.All)
        (s3.size + 1) np (UpdateType.Children ||| UpdateType.ZIndexSortedChildren))
      (s3.size + 1) n np
  | none => s3

/-- Translation of the CoreNode.parent setter: early return when the parent is
unchanged; otherwise re-point the parent reference, detach from the old
parent's children (fatal assertion if absent), attach to the new parent's
children with a full self update and a Children and ZIndexSortedChildren
update on the new parent (plus RTT forwarding when the new parent is in a
render-texture subtree), then recompute the scale/rotate transform. -/
def parentSetF (ctx : TrigCtx) (s : Forest) (n : Nat) (newParent : Option Nat) :
    Except AssertErr Forest :=
  if (s.node n).parent == newParent then Except.ok s
  else
    match detachStep (s.modify n fun nd => { nd with parent := newParent })
        ((s.node n).parent) n with
    | Except.error e => Except.error e
    | Except.ok s3 =>
      Except.ok ((attachStep s3 n newParent).modify n (updateScaleRotateTransformF ctx))

/-- Children lists and parent references are mutually consistent, children
lists contain no duplicates, and all referenced ids are in range. -/
def consistent (s : Forest) : Prop :=
  (∀ i, i < s.size →
    ((s.node i).children.Nodup ∧
      (∀ c ∈ (s.node i).children, c < s.size) ∧
      (∀ p, (s.node i).parent = some p → p < s.size))) ∧
  (∀ i, i < s.size → ∀ p, p < s.size →
    ((s.node i).parent = some p ↔ i ∈ (s.node p).children))

instance (s : Forest) : Decidable (consistent s) := by
  unfold consistent
  infer_instance

/-! ## Forest infrastructure lemmas -/

theorem Forest.size_modify (s : Forest) (i : Nat) (f : FNode → FNode) :
    (s.modify i f).size = s.size := by
  simp [Forest.modify, Forest.size]

theorem Forest.node_modify (s : Forest) (i m : Nat) (f : FNode → FNode) :
    (s.modify i f).node m =
      if m = i ∧ m < s.size then f (s.node m) else s.node m := by
  by_cases hm : m = i
  · subst hm
    by_cases hlt : m < s.size
    · simp only [hlt, and_true, if_pos rfl]
      simp [Forest.modify, Forest.node, List.getD, List.getElem?_set_self hlt]
    · simp only [hlt, and_false, if_false]
      have hle : s.nodes.length ≤ m := Nat.le_of_not_lt hlt
      simp [Forest.modify, Forest.node, List.set_eq_of_length_le hle]
  · simp only [hm, false_and, if_false]
    simp [Forest.modify, Forest.node, List.getD, List.getElem?_set_ne (fun h => hm h.symm)]

theorem Forest.node_modify_ne (s : Forest) (i m : Nat) (f : FNode → FNode)
    (h : m ≠ i) : (s.modify i f).node m = s.node m := by
  rw [Forest.node_modify]
  simp [h]

theorem Forest.node_modify_self (s : Forest) (i : Nat) (f : FNode → FNode)
    (h : i < s.size) : (s.modify i f).node i = f (s.node i) := by
  rw [Forest.node_modify]
  simp [h]

theorem setRTTUpdatesF_size (fuel : Nat) : ∀ (s : Forest) (i t : Nat),
    (setRTTUpdatesF s fuel i t).size = s.size := by
  induction fuel with
  | zero => intro s i t; rfl
  | succ fuel ih =>
    intro s i t
    unfold setRTTUpdatesF
    cases hpar : ((s.modify i fun n => { n with hasRTTupdates := true }).node i).parent with
    | some p => simp only [hpar, ih, Forest.size_modify]
    | none => simp only [hpar, Forest.size_modify]

/-- setRTTUpdates changes only the hasRTTupdates flags: every other field of
every node is untouched. -/
theorem setRTTUpdatesF_node (fuel : Nat) : ∀ (s : Forest) (i t m : Nat),
    ((setRTTUpdatesF s fuel i t).node m).parent = (s.node m).parent ∧
      ((setRTTUpdatesF s fuel i t).node m).children = (s.node m).children ∧
      ((setRTTUpdatesF s fuel i t).node m).updateType = (s.node m).updateType ∧
      ((setRTTUpdatesF s fuel i t).node m).parentHasRenderTexture =
        (s.node m).parentHasRenderTexture ∧
      ((setRTTUpdatesF s fuel i t).node m).rtt = (s.node m).rtt ∧
      ((setRTTUpdatesF s fuel i t).node m).rotation = (s.node m).rotation ∧
      ((setRTTUpdatesF s fuel i t).node m).scaleX = (s.node m).scaleX ∧
      ((setRTTUpdatesF s fuel i t).node m).scaleY = (s.node m).scaleY ∧
      ((setRTTUpdatesF s fuel i t).node m).scaleRotateTransform =
        (s.node m).scaleRotateTransform := by
  induction fuel with
  | zero => intro s i t m; exact ⟨rfl, rfl, rfl, rfl, rfl, rfl, rfl, rfl, rfl⟩
  | succ fuel ih =>
    intro s i t m
    unfold setRTTUpdatesF
    set s1 := s.modify i fun n => { n with hasRTTupdates := true } with hs1
    have hbase : (s1.node m).parent = (s.node m).parent ∧
        (s1.node m).children = (s.node m).children ∧
        (s1.node m).updateType = (s.node m).updateType ∧
        (s1.node m).parentHasRenderTexture = (s.node m).parentHasRenderTexture ∧
        (s1.node m).rtt = (s.node m).rtt ∧
        (s1.node m).rotation = (s.node m).rotation ∧
        (s1.node m).scaleX = (s.node m).scaleX ∧
        (s1.node m).scaleY = (s.node m).scaleY ∧
        (s1.node m).scaleRotateTransform = (s.node m).scaleRotateTransform := by
      rw [hs1, Forest.node_modify]
      split <;> simp
    cases hpar : (s1.node i).parent with
    | some p =>
      simp only [hpar]
      obtain ⟨h1, h2, h3, h4, h5, h6, h7, h8, h9⟩ := ih s1 p t m
      rw [h1, h2, h3, h4, h5, h6, h7, h8, h9]
      exact hbase
    | none => simpa only [hpar] using hbase

theorem or_and_children (a : Nat) : (a ||| 1) &&& 1 = 1 := by
  simp [Nat.and_one_is_mod, Nat.or_mod_two_eq_one]

theorem ancChain_congr (s2 s : Forest)
    (hpar : ∀ m, (s2.node m).parent = (s.node m).parent) :
    ∀ (fuel : Nat) (n : Nat),
      ancChain s2 fuel n = ancChain s fuel n ∧
        chainClosed s2 fuel n = chainClosed s fuel n := by
  intro fuel
  induction fuel with
  | zero => intro n; simp [ancChain, chainClosed, hpar]
  | succ fuel ih =>
    intro n
    unfold ancChain chainClosed
    rw [hpar n]
    cases (s.node n).parent with
    | some p => simp [ih p]
    | none => simp

theorem chainClosed_parent {s : Forest} {fuel n p : Nat}
    (hcl : chainClosed s (fuel + 1) n = true) (hp : (s.node n).parent = some p) :
    chainClosed s fuel p = true := by
  unfold chainClosed at hcl
  rwa [hp] at hcl

theorem ancChain_parent {s : Forest} {fuel n p : Nat}
    (hp : (s.node n).parent = some p) :
    ancChain s (fuel + 1) n = p :: ancChain s fuel p := by
  have h : ancChain s (fuel + 1) n =
      match (s.node n).parent with
      | some q => q :: ancChain s fuel q
      | none => [] := rfl
  rw [h, hp]

theorem chain_mono {s : Forest} : ∀ {fuel : Nat} {n : Nat},
    chainClosed s fuel n = true → ∀ {g : Nat}, fuel ≤ g →
      chainClosed s g n = true ∧ ancChain s g n = ancChain s fuel n := by
  intro fuel
  induction fuel with
  | zero =>
    intro n hcl g _
    have hpar : (s.node n).parent = none := by
      simpa [chainClosed] using hcl
    cases g with
    | zero => exact ⟨hcl, rfl⟩
    | succ g => simp [chainClosed, ancChain, hpar]
  | succ fuel ih =>
    intro n hcl g hg
    cases hpar : (s.node n).parent with
    | none =>
      cases g with
      | zero => omega
      | succ g => simp [chainClosed, ancChain, hpar]
    | some p =>
      have hclp : chainClosed s fuel p = true := chainClosed_parent hcl hpar
      cases g with
      | zero => omega
      | succ g =>
        have hfg : fuel ≤ g := Nat.le_of_succ_le_succ hg
        obtain ⟨h1, h2⟩ := ih hclp hfg
        constructor
        · simpa [chainClosed, hpar] using h1
        · rw [ancChain_parent hpar, ancChain_parent hpar, h2]

theorem chainLen_lt {s : Forest} : ∀ {fuel : Nat} {n : Nat},
    chainClosed s fuel n = true → ∀ m ∈ ancChain s fuel n,
      chainClosed s fuel m = true ∧
        (ancChain s fuel m).length < (ancChain s fuel n).length := by
  intro fuel
  induction fuel with
  | zero => intro n _ m hm; simp [ancChain] at hm
  | succ fuel ih =>
    intro n hcl m hm
    cases hpar : (s.node n).parent with
    | none => rw [ancChain] at hm; rw [hpar] at hm; simp at hm
    | some p =>
      have hclp : chainClosed s fuel p = true := chainClosed_parent hcl hpar
      rw [ancChain_parent hpar] at hm ⊢
      rcases List.mem_cons.mp hm with rfl | hm2
      · obtain ⟨h1, h2⟩ := chain_mono hclp (Nat.le_succ fuel)
        exact ⟨h1, by rw [h2]; simp⟩
      · obtain ⟨h1, h2⟩ := ih hclp m hm2
        obtain ⟨h3, h4⟩ := chain_mono h1 (Nat.le_succ fuel)
        refine ⟨h3, ?_⟩
        rw [h4]
        calc (ancChain s fuel m).length < (ancChain s fuel p).length := h2
          _ < (ancChain s fuel p).length + 1 := Nat.lt_succ_self _
          _ = (p :: ancChain s fuel p).length := rfl

theorem chainNotMem {s : Forest} {fuel n : Nat}
    (hcl : chainClosed s fuel n = true) : n ∉ ancChain s fuel n := by
  intro hmem
  exact absurd (chainLen_lt hcl n hmem).2 (Nat.lt_irrefl _)

/-! ## The setUpdateType propagation theorem (C2 master) -/

theorem orMaskAt_size (s : Forest) (i t : Nat) : (orMaskAt s i t).size = s.size :=
  Forest.size_modify s i _

theorem orMaskAt_parent (s : Forest) (i t m : Nat) :
    ((orMaskAt s i t).node m).parent = (s.node m).parent := by
  unfold orMaskAt
  rw [Forest.node_modify]
  split <;> rfl

theorem orMaskAt_updateType_ne (s : Forest) (i t m : Nat) (h : m ≠ i) :
    ((orMaskAt s i t).node m).updateType = (s.node m).updateType := by
  unfold orMaskAt
  rw [Forest.node_modify_ne s i m _ h]

theorem orMaskAt_updateType_self (s : Forest) (i t : Nat) (h : i < s.size) :
    ((orMaskAt s i t).node i).updateType = (s.node i).updateType ||| t := by
  unfold orMaskAt
  rw [Forest.node_modify_self s i _ h]

theorem rttForward_updateType (s2 : Forest) (fuel i t m : Nat) :
    ((rttForward s2 fuel i t).node m).updateType = (s2.node m).updateType := by
  unfold rttForward
  split
  · exact (setRTTUpdatesF_node _ _ _ _ _).2.2.1
  · rfl

theorem setUpdateTypeF_succ (s : Forest) (fuel i t : Nat) :
    setUpdateTypeF s (fuel + 1) i t =
      rttForward
        (match ((orMaskAt s i t).node i).parent with
         | some p =>
           if ((orMaskAt s i t).node p).updateType &&& UpdateType.Children = 0 then
             setUpdateTypeF (orMaskAt s i t) fuel p UpdateType.Children
           else orMaskAt s i t
         | none => orMaskAt s i t)
        (fuel + 1) i t := rfl

theorem getD_cons_succ (a : Nat) (l : List Nat) (j d : Nat) :
    (a :: l).getD (j + 1) d = l.getD j d := by
  simp [List.getD]

theorem getD_mem_of_lt (l : List Nat) (j d : Nat) (hj : j < l.length) :
    l.getD j d ∈ l := by
  rw [List.getD_eq_getElem l d hj]
  exact List.getElem_mem hj

theorem getD_cons_zero (a : Nat) (l : List Nat) (d : Nat) :
    (a :: l).getD 0 d = a := rfl

theorem or_children_hasCh (a : Nat) :
    ((a ||| UpdateType.Children) &&& UpdateType.Children != 0) = true := by
  show ((a ||| 1) &&& 1 != 0) = true
  rw [or_and_children]
  rfl

theorem setUpdateType_master : ∀ (fuel : Nat) (s : Forest) (n X : Nat),
    chainClosed s fuel n = true → n < s.size →
    (∀ a ∈ ancChain s fuel n, a < s.size) →
    (((setUpdateTypeF s (fuel + 1) n X).node n).updateType
        = (s.node n).updateType ||| X) ∧
    (∀ m, m ≠ n → m ∉ ancChain s fuel n →
      ((setUpdateTypeF s (fuel + 1) n X).node m).updateType
        = (s.node m).updateType) ∧
    (∀ k, k < (ancChain s fuel n).length →
      ((∀ j, j < k → hasCh s ((ancChain s fuel n).getD j 0) = false) →
        hasCh (setUpdateTypeF s (fuel + 1) n X) ((ancChain s fuel n).getD k 0) = true) ∧
      ((∃ j, j < k ∧ hasCh s ((ancChain s fuel n).getD j 0) = true) →
        ((setUpdateTypeF s (fuel + 1) n X).node
            ((ancChain s fuel n).getD k 0)).updateType
          = (s.node ((ancChain s fuel n).getD k 0)).updateType)) := by
  intro fuel
  induction fuel with
  | zero =>
    intro s n X hcl hn hbnd
    have hpar : (s.node n).parent = none := by simpa [chainClosed] using hcl
    rw [setUpdateTypeF_succ]
    set s1 := orMaskAt s n X with hs1
    have hpar1 : (s1.node n).parent = none := by rw [hs1, orMaskAt_parent, hpar]
    simp only [hpar1]
    refine ⟨?_, ?_, ?_⟩
    · rw [rttForward_updateType, hs1, orMaskAt_updateType_self s n X hn]
    · intro m hm _
      rw [rttForward_updateType, hs1, orMaskAt_updateType_ne s n X m hm]
    · intro k hk
      simp [ancChain] at hk
  | succ fuel ih =>
    intro s n X hcl hn hbnd
    rw [setUpdateTypeF_succ]
    set s1 := orMaskAt s n X with hs1
    have hparpres : ∀ m, (s1.node m).parent = (s.node m).parent := by
      intro m; rw [hs1]; exact orMaskAt_parent s n X m
    cases hpar : (s.node n).parent with
    | none =>
      have hpar1 : (s1.node n).parent = none := by rw [hparpres, hpar]
      simp only [hpar1]
      have hA : ancChain s (fuel + 1) n = [] := by
        have h : ancChain s (fuel + 1) n =
            match (s.node n).parent with
            | some q => q :: ancChain s fuel q
            | none => [] := rfl
        rw [h, hpar]
      refine ⟨?_, ?_, ?_⟩
      · rw [rttForward_updateType, hs1, orMaskAt_updateType_self s n X hn]
      · intro m hm _
        rw [rttForward_updateType, hs1, orMaskAt_updateType_ne s n X m hm]
      · intro k hk
        rw [hA] at hk
        simp at hk
    | some p =>
      have hpar1 : (s1.node n).parent = some p := by rw [hparpres, hpar]
      simp only [hpar1]
      have hclp : chainClosed s fuel p = true := chainClosed_parent hcl hpar
      have hchain : ancChain s (fuel + 1) n = p :: ancChain s fuel p :=
        ancChain_parent hpar
      have hnotmem : n ∉ ancChain s (fuel + 1) n := chainNotMem hcl
      have hpn : p ≠ n := by
        intro h
        exact hnotmem (by rw [hchain, h]; exact List.mem_cons_self _ _)
      have hnpchain : n ∉ ancChain s fuel p := by
        intro h
        exact hnotmem (by rw [hchain]; exact List.mem_cons_of_mem _ h)
      have hchain1 : ancChain s1 fuel p = ancChain s fuel p :=
        (ancChain_congr s1 s hparpres fuel p).1
      have hclp1 : chainClosed s1 fuel p = true := by
        rw [(ancChain_congr s1 s hparpres fuel p).2]; exact hclp
      have hupd1_ne : ∀ m, m ≠ n → (s1.node m).updateType = (s.node m).updateType := by
        intro m hm; rw [hs1]; exact orMaskAt_updateType_ne s n X m hm
      have hupd1_self : (s1.node n).updateType = (s.node n).updateType ||| X := by
        rw [hs1]; exact orMaskAt_updateType_self s n X hn
      have hp1 : (s1.node p).updateType = (s.node p).updateType := hupd1_ne p hpn
      have hpsize : p < s.size := hbnd p (by rw [hchain]; exact List.mem_cons_self _ _)
      have hchainNe : ∀ j, j < (ancChain s fuel p).length →
          (ancChain s fuel p).getD j 0 ≠ n := by
        intro j hj h
        exact hnpchain (h ▸ getD_mem_of_lt _ j 0 hj)
      have hchNe : ∀ a, a ≠ n → hasCh s1 a = hasCh s a := by
        intro a ha
        unfold hasCh
        rw [hupd1_ne a ha]
      by_cases hstop : (s1.node p).updateType &&& UpdateType.Children = 0
      · -- the parent lacks Children: the source recurses into the parent
        rw [if_pos hstop]
        have hbnd1 : ∀ a ∈ ancChain s1 fuel p, a < s1.size := by
          intro a ha
          rw [hchain1] at ha
          rw [hs1, orMaskAt_size]
          exact hbnd a (by rw [hchain]; exact List.mem_cons_of_mem _ ha)
        have hpsize1 : p < s1.size := by rw [hs1, orMaskAt_size]; exact hpsize
        obtain ⟨ih1, ih2, ih34⟩ := ih s1 p UpdateType.Children hclp1 hpsize1 hbnd1
        rw [hchain1] at ih2 ih34
        set s2 := setUpdateTypeF s1 (fuel + 1) p UpdateType.Children with hs2
        refine ⟨?_, ?_, ?_⟩
        · rw [rttForward_updateType, ih2 n (Ne.symm hpn) hnpchain, hupd1_self]
        · intro m hmn hmA
          rw [hchain] at hmA
          have hmp : m ≠ p := fun h => hmA (h ▸ List.mem_cons_self _ _)
          have hmA2 : m ∉ ancChain s fuel p := fun h => hmA (List.mem_cons_of_mem _ h)
          rw [rttForward_updateType, ih2 m hmp hmA2, hupd1_ne m hmn]
        · intro k hk
          rw [hchain] at hk ⊢
          cases k with
          | zero =>
            constructor
            · intro _
              unfold hasCh
              rw [getD_cons_zero, rttForward_updateType, ih1, hp1]
              exact or_children_hasCh _
            · rintro ⟨j, hj, _⟩
              omega
          | succ k =>
            have hk2 : k < (ancChain s fuel p).length := by
              simpa using Nat.lt_of_succ_lt_succ hk
            rw [getD_cons_succ]
            obtain ⟨ih3, ih4⟩ := ih34 k hk2
            constructor
            · intro hall
              have hall2 : ∀ j, j < k →
                  hasCh s1 ((ancChain s fuel p).getD j 0) = false := by
                intro j hj
                rw [hchNe _ (hchainNe j (Nat.lt_trans hj hk2))]
                have := hall (j + 1) (Nat.succ_lt_succ hj)
                rwa [getD_cons_succ] at this
              have hres := ih3 hall2
              unfold hasCh at hres ⊢
              rw [rttForward_updateType]
              exact hres
            · rintro ⟨j, hj, hjc⟩
              cases j with
              | zero =>
                exfalso
                rw [getD_cons_zero] at hjc
                unfold hasCh at hjc
                rw [← hp1, hstop] at hjc
                simp at hjc
              | succ j =>
                have hj2 : j < k := Nat.lt_of_succ_lt_succ hj
                rw [getD_cons_succ] at hjc
                have hjlen : j < (ancChain s fuel p).length := Nat.lt_trans hj2 hk2
                have hjc1 : hasCh s1 ((ancChain s fuel p).getD j 0) = true := by
                  rw [hchNe _ (hchainNe j hjlen)]; exact hjc
                rw [rttForward_updateType, ih4 ⟨j, hj2, hjc1⟩,
                  hupd1_ne _ (hchainNe k hk2)]
      · -- the parent already has Children: propagation stops here
        rw [if_neg hstop]
        have hchp : hasCh s p = true := by
          unfold hasCh
          rw [← hp1]
          cases hz : (s1.node p).updateType &&& UpdateType.Children with
          | zero => exact absurd hz hstop
          | succ m => rfl
        refine ⟨?_, ?_, ?_⟩
        · rw [rttForward_updateType, hupd1_self]
        · intro m hmn _
          rw [rttForward_updateType, hupd1_ne m hmn]
        · intro k hk
          rw [hchain] at hk ⊢
          cases k with
          | zero =>
            constructor
            · intro _
              unfold hasCh
              rw [getD_cons_zero, rttForward_updateType, hp1]
              unfold hasCh at hchp
              exact hchp
            · rintro ⟨j, hj, _⟩
              omega
          | succ k =>
            have hk2 : k < (ancChain s fuel p).length := by
              simpa using Nat.lt_of_succ_lt_succ hk
            rw [getD_cons_succ]
            constructor
            · intro hall
              exfalso
              have h0 := hall 0 (Nat.succ_pos k)
              rw [getD_cons_zero] at h0
              rw [hchp] at h0
              simp at h0
            · intro _
              rw [rttForward_updateType, hupd1_ne _ (hchainNe k hk2)]

/-! ## Structural preservation: mask operations never touch the tree links -/

theorem Forest.node_oob (s : Forest) (i : Nat) (h : s.size ≤ i) :
    s.node i = default := by
  simp [Forest.node, List.getD_eq_getElem?_getD, List.getElem?_eq_none h]

theorem orMaskAt_children (s : Forest) (i t m : Nat) :
    ((orMaskAt s i t).node m).children = (s.node m).children := by
  unfold orMaskAt
  rw [Forest.node_modify]
  split <;> rfl

theorem rttForward_parent (s2 : Forest) (fuel i t m : Nat) :
    ((rttForward s2 fuel i t).node m).parent = (s2.node m).parent := by
  unfold rttForward
  split
  · exact (setRTTUpdatesF_node _ _ _ _ _).1
  · rfl

theorem rttForward_children (s2 : Forest) (fuel i t m : Nat) :
    ((rttForward s2 fuel i t).node m).children = (s2.node m).children := by
  unfold rttForward
  split
  · exact (setRTTUpdatesF_node _ _ _ _ _).2.1
  · rfl

theorem rttForward_size (s2 : Forest) (fuel i t : Nat) :
    (rttForward s2 fuel i t).size = s2.size := by
  unfold rttForward
  split
  · exact setRTTUpdatesF_size _ _ _ _
  · rfl

theorem setUpdateTypeF_tree : ∀ (fuel : Nat) (s : Forest) (i t m : Nat),
    ((setUpdateTypeF s fuel i t).node m).parent = (s.node m).parent ∧
      ((setUpdateTypeF s fuel i t).node m).children = (s.node m).children := by
  intro fuel
  induction fuel with
  | zero => intro s i t m; exact ⟨rfl, rfl⟩
  | succ fuel ih =>
    intro s i t m
    rw [setUpdateTypeF_succ]
    cases hp : ((orMaskAt s i t).node i).parent with
    | some p =>
      simp only [hp]
      by_cases hstop : ((orMaskAt s i t).node p).updateType &&& UpdateType.Children = 0
      · rw [if_pos hstop]
        obtain ⟨h1, h2⟩ := ih (orMaskAt s i t) p UpdateType.Children m
        rw [rttForward_parent, rttForward_children, h1, h2, orMaskAt_parent,
          orMaskAt_children]
        exact ⟨rfl, rfl⟩
      · rw [if_neg hstop]
        rw [rttForward_parent, rttForward_children, orMaskAt_parent, orMaskAt_children]
        exact ⟨rfl, rfl⟩
    | none =>
      simp only [hp]
      rw [rttForward_parent, rttForward_children, orMaskAt_parent, orMaskAt_children]
      exact ⟨rfl, rfl⟩

theorem setUpdateTypeF_size : ∀ (fuel : Nat) (s : Forest) (i t : Nat),
    (setUpdateTypeF s fuel i t).size = s.size := by
  intro fuel
  induction fuel with
  | zero => intro s i t; rfl
  | succ fuel ih =>
    intro s i t
    rw [setUpdateTypeF_succ]
    cases hp : ((orMaskAt s i t).node i).parent with
    | some p =>
      simp only [hp]
      by_cases hstop : ((orMaskAt s i t).node p).updateType &&& UpdateType.Children = 0
      · rw [if_pos hstop, rttForward_size, ih, orMaskAt_size]
      · rw [if_neg hstop, rttForward_size, orMaskAt_size]
    | none =>
      simp only [hp]
      rw [rttForward_size, orMaskAt_size]

theorem findIdx_erase {l : List Nat} {n : Nat} (h : n ∈ l) :
    ∃ i, l.findIdx? (fun c => c == n) = some i ∧ l.eraseIdx i = l.erase n := by
  induction l with
  | nil => simp at h
  | cons a l ih =>
    by_cases ha : a = n
    · subst ha
      refine ⟨0, by simp, ?_⟩
      simp [List.eraseIdx, List.erase_cons_head]
    · have hmem : n ∈ l := by
        rcases List.mem_cons.mp h with h1 | h1
        · exact absurd h1.symm ha
        · exact h1
      obtain ⟨i, hfi, he⟩ := ih hmem
      refine ⟨i + 1, ?_, ?_⟩
      · simp [List.findIdx?_cons, ha, hfi]
      · simp [List.eraseIdx, he, List.erase_cons_tail, ha]

/-! ## Shape of the parent setter: effect on the tree links -/

theorem parentSet_shape (ctx : TrigCtx) (s : Forest) (n : Nat) (np : Option Nat)
    (hn : n < s.size) (hne : (s.node n).parent ≠ np)
    (hq : ∀ q, np = some q → q < s.size)
    (hmem : ∀ op, (s.node n).parent = some op → n ∈ (s.node op).children) :
    ∃ s2, parentSetF ctx s n np = Except.ok s2 ∧ s2.size = s.size ∧
      (∀ m, (s2.node m).parent = (if m = n then np else (s.node m).parent)) ∧
      (∀ m, (s2.node m).children =
        (if (s.node n).parent = some m then (s.node m).children.erase n
         else (s.node m).children) ++ (if np = some m then [n] else [])) := by
  unfold parentSetF
  rw [if_neg (by simp [hne])]
  set s1 := s.modify n fun nd => { nd with parent := np } with hs1
  have hs1size : s1.size = s.size := Forest.size_modify _ _ _
  have hs1par : ∀ m, (s1.node m).parent = (if m = n then np else (s.node m).parent) := by
    intro m
    rw [hs1, Forest.node_modify]
    by_cases hm : m = n
    · subst hm; simp [hn]
    · simp [hm]
  have hs1chi : ∀ m, (s1.node m).children = (s.node m).children := by
    intro m
    rw [hs1, Forest.node_modify]
    split <;> rfl
  -- detach half
  have hdet : ∃ s3, detachStep s1 ((s.node n).parent) n = Except.ok s3 ∧
      s3.size = s.size ∧
      (∀ m, (s3.node m).parent = (s1.node m).parent) ∧
      (∀ m, (s3.node m).children =
        (if (s.node n).parent = some m then (s.node m).children.erase n
         else (s.node m).children)) := by
    cases hop : (s.node n).parent with
    | none =>
      refine ⟨s1, rfl, hs1size, fun m => rfl, ?_⟩
      intro m
      simp [hs1chi m]
    | some op =>
      have hmem2 : n ∈ (s1.node op).children := by
        rw [hs1chi]
        exact hmem op hop
      obtain ⟨idx, hfi, herase⟩ := findIdx_erase hmem2
      have hopsize : op < s.size := by
        by_contra hc
        have hdef : s1.node op = default := by
          apply Forest.node_oob
          rw [hs1size]
          omega
        rw [hdef] at hmem2
        simp [default] at hmem2
      have hopsize1 : op < s1.size := by rw [hs1size]; exact hopsize
      have herasechi : ∀ m,
          ((s1.modify op fun nd =>
            { nd with children := nd.children.eraseIdx idx }).node m).children =
          (if m = op then (s1.node op).children.eraseIdx idx
           else (s1.node m).children) := by
        intro m
        rw [Forest.node_modify]
        by_cases hm : m = op
        · subst hm; simp [hopsize1]
        · simp [hm]
      have herasepar : ∀ m,
          ((s1.modify op fun nd =>
            { nd with children := nd.children.eraseIdx idx }).node m).parent =
          (s1.node m).parent := by
        intro m
        rw [Forest.node_modify]
        split <;> rfl
      simp only [detachStep, hfi]
      refine ⟨_, rfl, ?_, ?_, ?_⟩
      · rw [setUpdateTypeF_size, Forest.size_modify, hs1size]
      · intro m
        rw [(setUpdateTypeF_tree _ _ _ _ m).1, herasepar m]
      · intro m
        rw [(setUpdateTypeF_tree _ _ _ _ m).2, herasechi m]
        by_cases hm : m = op
        · subst hm
          simp only [if_pos rfl]
          rw [herase, hs1chi]
        · have hne2 : ¬(some op = some m) := by
            intro hcontra
            exact hm (Option.some.inj hcontra).symm
          simp [hm, hne2, hs1chi m]
  obtain ⟨s3, hdet1, hdet2, hdet3, hdet4⟩ := hdet
  rw [hdet1]
  -- attach half
  have hatt : (∀ m, ((attachStep s3 n np).node m).parent = (s3.node m).parent) ∧
      (∀ m, ((attachStep s3 n np).node m).children =
        (s3.node m).children ++ (if np = some m then [n] else [])) := by
    cases hnpc : np with
    | none =>
      constructor <;> intro m <;> simp [attachStep]
    | some q =>
      have hqsize : q < s3.size := by rw [hdet2]; exact hq q hnpc
      have hpushchi : ∀ m,
          ((s3.modify q fun nd =>
            { nd with children := nd.children ++ [n] }).node m).children =
          (if m = q then (s3.node q).children ++ [n] else (s3.node m).children) := by
        intro m
        rw [Forest.node_modify]
        by_cases hm : m = q
        · subst hm; simp [hqsize]
        · simp [hm]
      have hpushpar : ∀ m,
          ((s3.modify q fun nd =>
            { nd with children := nd.children ++ [n] }).node m).parent =
          (s3.node m).parent := by
        intro m
        rw [Forest.node_modify]
        split <;> rfl
      constructor
      · intro m
        simp only [attachStep]
        unfold attachRtt
        split
        · rw [(setRTTUpdatesF_node _ _ _ _ _).1, (setUpdateTypeF_tree _ _ _ _ m).1,
            (setUpdateTypeF_tree _ _ _ _ m).1, hpushpar m]
        · rw [(setUpdateTypeF_tree _ _ _ _ m).1, (setUpdateTypeF_tree _ _ _ _ m).1,
            hpushpar m]
      · intro m
        simp only [attachStep]
        unfold attachRtt
        have hfinish :
            (if m = q then (s3.node q).children ++ [n] else (s3.node m).children) =
            (s3.node m).children ++ (if some q = some m then [n] else []) := by
          by_cases hm : m = q
          · subst hm; simp
          · have hne2 : ¬(some q = some m) := by
              intro hcontra
              exact hm (Option.some.inj hcontra).symm
            simp [hm, hne2]
        split
        · rw [(setRTTUpdatesF_node _ _ _ _ _).2.1, (setUpdateTypeF_tree _ _ _ _ m).2,
            (setUpdateTypeF_tree _ _ _ _ m).2, hpushchi m, hfinish]
        · rw [(setUpdateTypeF_tree _ _ _ _ m).2, (setUpdateTypeF_tree _ _ _ _ m).2,
            hpushchi m, hfinish]
  have hattsize : (attachStep s3 n np).size = s3.size := by
    cases hnpc : np with
    | none => simp [attachStep]
    | some q =>
      simp only [attachStep]
      unfold attachRtt
      split
      · rw [setRTTUpdatesF_size, setUpdateTypeF_size, setUpdateTypeF_size,
          Forest.size_modify]
      · rw [setUpdateTypeF_size, setUpdateTypeF_size, Forest.size_modify]
  refine ⟨_, rfl, ?_, ?_, ?_⟩
  · rw [Forest.size_modify, hattsize, hdet2]
  · intro m
    have hfin : (((attachStep s3 n np).modify n
        (updateScaleRotateTransformF ctx)).node m).parent =
        ((attachStep s3 n np).node m).parent := by
      rw [Forest.node_modify]
      unfold updateScaleRotateTransformF
      split <;> rfl
    rw [hfin, hatt.1 m, hdet3, hs1par]
  · intro m
    have hfin : (((attachStep s3 n np).modify n
        (updateScaleRotateTransformF ctx)).node m).children =
        ((attachStep s3 n np).node m).children := by
      rw [Forest.node_modify]
      unfold updateScaleRotateTransformF
      split <;> rfl
    rw [hfin, hatt.2 m, hdet4]

/-- Base node value used to build concrete forests in examples. -/
def FNode.base : FNode where
  parent := none
  children := []
  updateType := 0
  hasRTTupdates := false
  parentHasRenderTexture := false
  rtt := false
  rotation := 0
  scaleX := 1
  scaleY := 1
  scaleRotateTransform := Matrix3d.identity

/-- Concrete three-node chain: 0 is the root, 1 is a child of 0 that already
has its Children flag set, 2 is a child of 1. -/
def fw0 : FNode := { FNode.base with children := [1] }

def fw1 : FNode :=
  { FNode.base with parent := some 0, children := [2], updateType := UpdateType.Children }

def fw2 : FNode := { FNode.base with parent := some 1 }

def forestW : Forest := ⟨[fw0, fw1, fw2]⟩

/-- Concrete trig context for examples. -/
def trigW : TrigCtx where
  cosF := fun _ => 1
  sinF := fun _ => 0

/-! ## Claim theorems: C2, C10 -/

/-- Claim C2: for every node N and every nonzero mask X, after
setUpdateType(X) on N the mask is ORed into N's pending flags, and every
ancestor of N has its Children flag set, unless a strictly closer ancestor
already had Children set before the call, in which case propagation stops
there: every ancestor above the first Children-carrying one keeps its pending
mask unchanged. The ancestor chain is listed by ancChain; chainClosed and the
bound hypothesis state that the parent walk stays inside the forest and
terminates, which is the acyclicity the recursive source relies on. -/
theorem setUpdateType_propagation (fuel : Nat) (s : Forest) (n X : Nat)
    (hX : X ≠ 0) (hcl : chainClosed s fuel n = true) (hn : n < s.size)
    (hbnd : ∀ a ∈ ancChain s fuel n, a < s.size) :
    (((setUpdateTypeF s (fuel + 1) n X).node n).updateType
        = (s.node n).updateType ||| X) ∧
    (∀ k, k < (ancChain s fuel n).length →
      ((∀ j, j < k → hasCh s ((ancChain s fuel n).getD j 0) = false) →
        hasCh (setUpdateTypeF s (fuel + 1) n X)
          ((ancChain s fuel n).getD k 0) = true) ∧
      ((∃ j, j < k ∧ hasCh s ((ancChain s fuel n).getD j 0) = true) →
        ((setUpdateTypeF s (fuel + 1) n X).node
            ((ancChain s fuel n).getD k 0)).updateType
          = (s.node ((ancChain s fuel n).getD k 0)).updateType)) := by
  obtain ⟨h1, _, h3⟩ := setUpdateType_master fuel s n X hcl hn hbnd
  exact ⟨h1, h3⟩

/-- Concrete instantiation of the C2 theorem on the three-node chain: marking
node 2 dirty with the Global mask ORs the mask into node 2. -/
theorem setUpdateType_propagation_witness :
    (8 : Nat) ≠ 0 ∧ chainClosed forestW 2 2 = true ∧ 2 < forestW.size ∧
      (∀ a ∈ ancChain forestW 2 2, a < forestW.size) ∧
      ((setUpdateTypeF forestW (2 + 1) 2 8).node 2).updateType
        = (forestW.node 2).updateType ||| 8 :=
  ⟨by decide, by decide, by decide, by decide,
    (setUpdateType_propagation 2 forestW 2 8 (by decide) (by decide) (by decide)
      (by decide)).1⟩

/-- Claim C10: assigning node.parent = p when p is already the node's current
parent is a complete no-op — the setter returns early, so the whole forest
(children lists, pending update masks, RTT flags, cached scale/rotate
transforms) is returned unchanged and no full UpdateType.All re-update is
triggered; the setter is idempotent. -/
theorem parentSet_noop (ctx : TrigCtx) (s : Forest) (n : Nat) (np : Option Nat)
    (h : (s.node n).parent = np) :
    parentSetF ctx s n np = Except.ok s := by
  simp only [parentSetF]
  rw [if_pos (by simp [h])]

/-- Concrete instantiation of the C10 theorem: re-assigning node 2's parent to
node 1 (its current parent) leaves the forest unchanged. -/
theorem parentSet_noop_witness :
    (forestW.node 2).parent = some 1 ∧
      parentSetF trigW forestW 2 (some 1) = Except.ok forestW :=
  ⟨by decide, parentSet_noop trigW forestW 2 (some 1) (by decide)⟩

/-! ## Claim theorem: C9 -/

/-- Claim C9: the tree is always consistent. First part: on a consistent
forest the parent setter succeeds (the detach assertion never fires) and
returns a consistent forest — every node's children list contains exactly the
nodes whose parent reference points to it — where the node has been removed
from the old parent's children and appended to the new parent's children
within the single call. Second part: when the node is missing from its old
parent's children list (a corrupted tree), the setter fails with the fatal
assertion error instead of silently continuing. -/
theorem parentSet_consistency (ctx : TrigCtx) (s : Forest) (n : Nat)
    (np : Option Nat) (hn : n < s.size) (hnp : ∀ q, np = some q → q < s.size) :
    (consistent s →
      ∃ s2, parentSetF ctx s n np = Except.ok s2 ∧ consistent s2 ∧
        s2.size = s.size ∧ (s2.node n).parent = np ∧
        (∀ op, (s.node n).parent = some op → np ≠ some op →
          n ∉ (s2.node op).children) ∧
        (∀ q, np = some q → (s.node n).parent ≠ np →
          (s2.node q).children = (s.node q).children ++ [n])) ∧
    (∀ op, (s.node n).parent = some op → np ≠ some op →
      n ∉ (s.node op).children →
      parentSetF ctx s n np = Except.error AssertErr.nodeNotFoundInOldParent) := by
  constructor
  · intro hcons
    by_cases heq : (s.node n).parent = np
    · refine ⟨s, ?_, hcons, rfl, heq, ?_, ?_⟩
      · unfold parentSetF
        rw [if_pos (by simp [heq])]
      · intro op hop hne2
        exact absurd (heq.symm.trans hop) hne2
      · intro q _ hne3
        exact absurd heq hne3
    · have hmem : ∀ op, (s.node n).parent = some op → n ∈ (s.node op).children := by
        intro op hop
        have hoplt : op < s.size := (hcons.1 n hn).2.2 op hop
        exact (hcons.2 n hn op hoplt).mp hop
      obtain ⟨s2, hok, hsize, hpar, hchi⟩ := parentSet_shape ctx s n np hn heq hnp hmem
      have hX : ∀ p, p < s.size →
          ((if (s.node n).parent = some p then (s.node p).children.erase n
            else (s.node p).children).Nodup ∧
           (∀ c, c ∈ (if (s.node n).parent = some p then (s.node p).children.erase n
            else (s.node p).children) → c ∈ (s.node p).children) ∧
           n ∉ (if (s.node n).parent = some p then (s.node p).children.erase n
            else (s.node p).children) ∧
           (∀ i, i ≠ n → (i ∈ (if (s.node n).parent = some p then
              (s.node p).children.erase n else (s.node p).children) ↔
              i ∈ (s.node p).children))) := by
        intro p hp
        have hnd := (hcons.1 p hp).1
        by_cases hc : (s.node n).parent = some p
        · simp only [if_pos hc]
          refine ⟨hnd.erase n, fun c hcc => (List.erase_subset _ _) hcc,
            hnd.not_mem_erase, ?_⟩
          intro i hi
          rw [hnd.mem_erase_iff]
          simp [hi]
        · simp only [if_neg hc]
          refine ⟨hnd, fun c hcc => hcc, ?_, fun i _ => by trivial⟩
          intro hin
          exact hc ((hcons.2 n hn p hp).mpr hin)
      have hY : ∀ p a, a ∈ (if np = some p then [n] else ([] : List Nat)) ↔
          (np = some p ∧ a = n) := by
        intro p a
        by_cases hc : np = some p
        · simp [hc]
        · simp [hc]
      refine ⟨s2, hok, ⟨?_, ?_⟩, hsize, by rw [hpar n]; simp, ?_, ?_⟩
      · intro i hi
        rw [hsize] at hi
        obtain ⟨hnd, hcb, hpb⟩ := hcons.1 i hi
        obtain ⟨hXnd, hXsub, hXn, hXmem⟩ := hX i hi
        refine ⟨?_, ?_, ?_⟩
        · rw [hchi i, List.nodup_append]
          refine ⟨hXnd, by split <;> simp, ?_⟩
          intro a ha hb
          obtain ⟨-, rfl⟩ := (hY i a).mp hb
          exact hXn ha
        · intro c hc
          rw [hsize]
          rw [hchi i] at hc
          rcases List.mem_append.mp hc with hc2 | hc2
          · exact hcb c (hXsub c hc2)
          · obtain ⟨-, rfl⟩ := (hY i c).mp hc2
            exact hn
        · intro p hpp
          rw [hsize]
          rw [hpar i] at hpp
          by_cases hin : i = n
          · rw [if_pos hin] at hpp
            exact hnp p hpp
          · rw [if_neg hin] at hpp
            exact hpb p hpp
      · intro i hi p hp
        rw [hsize] at hi hp
        obtain ⟨hXnd, hXsub, hXn, hXmem⟩ := hX p hp
        rw [hpar i, hchi p]
        by_cases hin : i = n
        · subst hin
          rw [if_pos rfl, List.mem_append]
          constructor
          · intro hnpp
            exact Or.inr ((hY p i).mpr ⟨hnpp, rfl⟩)
          · rintro (hxx | hyy)
            · exact absurd hxx hXn
            · exact ((hY p i).mp hyy).1
        · rw [if_neg hin, List.mem_append]
          constructor
          · intro hpp
            exact Or.inl ((hXmem i hin).mpr ((hcons.2 i hi p hp).mp hpp))
          · rintro (hxx | hyy)
            · exact (hcons.2 i hi p hp).mpr ((hXmem i hin).mp hxx)
            · exact absurd ((hY p i).mp hyy).2 hin
      · intro op hop hne2
        have hoplt : op < s.size := (hcons.1 n hn).2.2 op hop
        obtain ⟨hXnd, hXsub, hXn, hXmem⟩ := hX op hoplt
        intro hmm
        rw [hchi op] at hmm
        rcases List.mem_append.mp hmm with hxx | hyy
        · exact hXn hxx
        · exact hne2 ((hY op n).mp hyy).1
      · intro q hq2 hne3
        rw [hchi q]
        have hparq : ¬((s.node n).parent = some q) := fun h => heq (h.trans hq2.symm)
        rw [if_neg hparq, if_pos hq2]
  · intro op hop hne2 hnotin
    unfold parentSetF
    rw [if_neg (by
      simp only [hop, beq_iff_eq]
      intro h
      exact hne2 h.symm)]
    have hchi1 : ((s.modify n fun nd => { nd with parent := np }).node op).children
        = (s.node op).children := by
      rw [Forest.node_modify]
      split <;> rfl
    have hfind : ((s.modify n fun nd =>
        { nd with parent := np }).node op).children.findIdx? (fun c => c == n)
        = none := by
      rw [hchi1]
      exact findIdx?_beq_eq_none hnotin
    rw [hop]
    simp [detachStep, hfind]

/-- Concrete instantiation of the C9 theorem: reparenting node 2 from node 1
to node 0 in the three-node chain succeeds and preserves consistency. -/
theorem parentSet_consistency_witness :
    2 < forestW.size ∧ consistent forestW ∧
      (∃ s2, parentSetF trigW forestW 2 (some 0) = Except.ok s2 ∧ consistent s2 ∧
        s2.size = forestW.size ∧ (s2.node 2).parent = some 0 ∧
        (∀ op, (forestW.node 2).parent = some op → some 0 ≠ some op →
          2 ∉ (s2.node op).children) ∧
        (∀ q, some 0 = some q → (forestW.node 2).parent ≠ some 0 →
          (s2.node q).children = (forestW.node q).children ++ [2])) :=
  ⟨by decide, by decide,
    (parentSet_consistency trigW forestW 2 (some 0) (by decide)
        (fun q hq => by
          obtain rfl : q = 0 := (Option.some.inj hq).symm
          decide)).1 (by decide)⟩

/-! ## Claim theorems: C1, C6, C7 -/

/-- Claim C1 (counterexample): the claim says a node with nonzero size, the
default shader, no clipping, no texture and all 9 color channels zero is not
render-eligible; the code returns true for it, because the source tests
`shader === defShaderCtr` (default shader), not a non-default shader. The
record below is exactly such a node and the code and the spec predicate
disagree on it. -/
theorem checkRenderProps_shader_counterexample :
    checkRenderProps 0 { CoreNodeProps.base with width := 1, height := 1 } = true ∧
      checkRenderPropsSpec 0 { CoreNodeProps.base with width := 1, height := 1 } = false := by
  constructor <;> rfl

/-- Claim C1 (amended): checkRenderProps returns true if and only if the node
has an attached texture, or it has nonzero width and nonzero height and at
least one of the following holds: it uses the DEFAULT shader (this is the
amendment: the source compares with `===`, not `!==`), or it clips, or any of
its 9 color channels (fill, 4 edges, 4 corners) is nonzero; in particular, a
node with zero width or zero height and no texture is never render-eligible
regardless of its other props. -/
theorem checkRenderProps_characterization (defShaderCtr : Nat) (p : CoreNodeProps) :
    checkRenderProps defShaderCtr p = true ↔
      p.texture.isSome = true ∨
        (p.width ≠ 0 ∧ p.height ≠ 0 ∧
          (p.shader = defShaderCtr ∨ p.clipping = true ∨ p.color ≠ 0 ∨
            p.colorTop ≠ 0 ∨ p.colorBottom ≠ 0 ∨ p.colorLeft ≠ 0 ∨
            p.colorRight ≠ 0 ∨ p.colorTl ≠ 0 ∨ p.colorTr ≠ 0 ∨
            p.colorBl ≠ 0 ∨ p.colorBr ≠ 0)) := by
  unfold checkRenderProps
  simp only [iteTrueElse, iteFalseElse, Bool.or_eq_true, beq_iff_eq, bne_iff_ne, ne_eq]
  tauto

/-- Claim C6 (code bug): with buffer size 800 the code computes maxQuads = 10
and allocates 60 index slots, but the loop `for (i = 0, j = 0; i < maxQuads;
i += 6, j += 4)` compares the index-buffer position against the quad count, so
it stops after two quads. Quads 0 and 1 carry the claimed pattern
(4q, 4q+1, 4q+2, 4q+2, 4q+1, 4q+3); quad 2 is left at the zero-initialized
state instead of (8, 9, 10, 10, 9, 11). -/
theorem createIndexBuffer_unfilled_quad :
    (createIndexBufferIndices 800).size = 60 ∧
      (createIndexBufferIndices 800).toList.take 6 = quadIndicesSpec 0 ∧
      ((createIndexBufferIndices 800).toList.drop 6).take 6 = quadIndicesSpec 1 ∧
      ((createIndexBufferIndices 800).toList.drop 12).take 6 = [0, 0, 0, 0, 0, 0] ∧
      ((createIndexBufferIndices 800).toList.drop 12).take 6 ≠ quadIndicesSpec 2 := by
  refine ⟨by decide, by decide, by decide, by decide, by decide⟩

/-- Claim C7: on a fresh render op, adding maxTextures pairwise-distinct
textures returns the increasing slot indices 0..maxTextures-1; the next
addition of a new distinct texture returns the sentinel 0xffffffff and leaves
the op's texture list unchanged; and re-adding an already-present texture
returns its original slot index without appending it again. -/
theorem addTexture_batching (M : Nat) (ts : List Nat) (x : Nat)
    (hlen : ts.length = M) (hnd : ts.Nodup) (hx : x ∉ ts) :
    ((WebGlCoreRenderOp.fresh M).addTextures ts).1 = List.range M ∧
      ((WebGlCoreRenderOp.fresh M).addTextures ts).2 =
        { textures := ts, maxTextures := M } ∧
      WebGlCoreRenderOp.addTexture { textures := ts, maxTextures := M } x =
        (0xffffffff, { textures := ts, maxTextures := M }) ∧
      ∀ (i : Nat) (hi : i < ts.length),
        WebGlCoreRenderOp.addTexture { textures := ts, maxTextures := M } ts[i] =
          (i, { textures := ts, maxTextures := M }) := by
  have hgo := addTextures_go M [] ts (by simpa using hnd) (by simp [hlen])
  have hfresh : WebGlCoreRenderOp.fresh M =
      { textures := ([] : List Nat), maxTextures := M } := rfl
  refine ⟨?_, ?_, ?_, ?_⟩
  · rw [hfresh, hgo]
    simp [List.range_eq_range', hlen]
  · rw [hfresh, hgo]
    simp
  · simp [WebGlCoreRenderOp.addTexture, findIdx?_beq_eq_none hx, hlen]
  · intro i hi
    simp [WebGlCoreRenderOp.addTexture, findIdx?_beq_get hnd i hi]

/-- Claim C5 (counterexample): the transform with ta = 1, tb = -1, tc = 0,
td = 1 is rotated in the claim's sense (nonzero tb), yet updateBoundingRect
takes the fast path because its test is tb = 0 OR tc = 0, producing the bound
(0, 0, 0, 1) instead of the min/max bound (-1, 0, 1, 1) over the four
transformed corners. -/
theorem updateBoundingRect_rotated_counterexample :
    ((⟨1, -1, 0, 1, 0, 0⟩ : Matrix3d).tb ≠ 0 ∨ (⟨1, -1, 0, 1, 0, 0⟩ : Matrix3d).tc ≠ 0) ∧
      renderBoundOf 1 1 ⟨1, -1, 0, 1, 0, 0⟩ = createBound 0 0 0 1 ∧
      renderBoundOf 1 1 ⟨1, -1, 0, 1, 0, 0⟩ ≠
        renderBoundSpec (calculateRenderCoords 1 1 ⟨1, -1, 0, 1, 0, 0⟩) := by
  have hrc : calculateRenderCoords 1 1 ⟨1, -1, 0, 1, 0, 0⟩ =
      (⟨0, 0, 1, 0, 0, 1, -1, 1⟩ : RenderCoords) := by
    unfold calculateRenderCoords
    rw [if_neg (by norm_num)]
    unfold RenderCoords.translate
    norm_num
  have hfast : renderBoundOf 1 1 ⟨1, -1, 0, 1, 0, 0⟩ = createBound 0 0 0 1 := by
    unfold renderBoundOf updateBoundingRect
    rw [hrc, if_pos (by norm_num)]
  have hspec : renderBoundSpec (⟨0, 0, 1, 0, 0, 1, -1, 1⟩ : RenderCoords) =
      createBound (-1) 0 1 1 := by
    unfold renderBoundSpec
    norm_num [createBound]
  refine ⟨Or.inl (by norm_num), hfast, ?_⟩
  rw [hfast, hrc, hspec]
  simp only [ne_eq, createBound, Bound.mk.injEq, not_and]
  intro h
  norm_num at h

/-- Claim C5 (amended): a node whose global transform has tb = 0 or tc = 0
takes the fast path and the axis-aligned render bound is built from the two
opposite corners (x1, y1) and (x3, y3) of the render coords — in particular
for a non-rotated transform (tb = 0 and tc = 0) these are (tx, ty) and
(tx + width * ta, ty + height * td); the min/max over all four transformed
corner coordinates is used only when both tb and tc are nonzero. -/
theorem renderBound_characterization (w h : Q) (t : Matrix3d) :
    (renderBoundOf w h t =
      (if t.tb = 0 ∨ t.tc = 0 then
        createBound (calculateRenderCoords w h t).x1 (calculateRenderCoords w h t).y1
          (calculateRenderCoords w h t).x3 (calculateRenderCoords w h t).y3
      else renderBoundSpec (calculateRenderCoords w h t))) ∧
    (t.tb = 0 ∧ t.tc = 0 →
      renderBoundOf w h t = createBound t.tx t.ty (t.tx + w * t.ta) (t.ty + h * t.td)) := by
  constructor
  · by_cases hor : t.tb = 0 ∨ t.tc = 0
    · rw [if_pos hor]
      unfold renderBoundOf updateBoundingRect
      rw [if_pos (by simp [hor])]
    · rw [if_neg hor]
      rw [not_or] at hor
      unfold renderBoundOf updateBoundingRect renderBoundSpec
      rw [if_neg (by simp [hor.1, hor.2])]
  · rintro ⟨hb, hc⟩
    unfold renderBoundOf updateBoundingRect calculateRenderCoords
    simp [hb, hc, RenderCoords.translate, createBound]

/-- Claim C3: after update processes the Global flag, a node with no parent
has globalTransform equal to its localTransform; a node with a parent has
globalTransform equal to the parent's globalTransform composed with the
node's localTransform, except when the direct parent is an rtt root, in which
case the composition base is the identity matrix (so the result is the local
transform itself). The hypothesis states cache coherence: when the direct
parent is an rtt root, the node's parentHasRenderTexture flag is set (update
establishes it in its ParentRenderTexture step before the Global step). -/
theorem globalTransform_composition (lt pg : Matrix3d) (prtt pHRT : Bool)
    (hcoh : prtt = true → pHRT = true) :
    computeGlobalTransform lt none pHRT = lt ∧
      computeGlobalTransform lt (some ⟨some pg, prtt⟩) pHRT =
        (if prtt then Matrix3d.identity else pg).multiply lt ∧
      Matrix3d.identity.multiply lt = lt := by
  refine ⟨by simp [computeGlobalTransform, Matrix3d.copy], ?_, Matrix3d.identity_multiply lt⟩
  cases prtt with
  | false => simp [computeGlobalTransform, Matrix3d.copy]
  | true =>
    have hp := hcoh rfl
    subst hp
    simp [computeGlobalTransform]

/-- Concrete instantiation of the C3 theorem: a child of an rtt root with
parentHasRenderTexture set restarts composition at the identity. -/
theorem globalTransform_composition_witness :
    (true = true → true = true) ∧
      computeGlobalTransform ⟨1, 0, 0, 1, 5, 6⟩
          (some ⟨some ⟨1, 0, 0, 1, 100, 200⟩, true⟩) true =
        (if true then Matrix3d.identity else ⟨1, 0, 0, 1, 100, 200⟩).multiply
          ⟨1, 0, 0, 1, 5, 6⟩ :=
  ⟨fun h => h,
    (globalTransform_composition ⟨1, 0, 0, 1, 5, 6⟩ ⟨1, 0, 0, 1, 100, 200⟩ true true
      (fun h => h)).2.1⟩

/-- Concrete instantiation of the C7 theorem: max 2 textures, adding textures
5 then 7 yields slots 0 and 1; texture 9 cannot be batched. -/
theorem addTexture_batching_witness :
    ([5, 7] : List Nat).length = 2 ∧ ([5, 7] : List Nat).Nodup ∧ 9 ∉ ([5, 7] : List Nat) ∧
      ((WebGlCoreRenderOp.fresh 2).addTextures [5, 7]).1 = List.range 2 :=
  ⟨by decide, by decide, by decide,
    (addTexture_batching 2 [5, 7] 9 (by decide) (by decide) (by decide)).1⟩

/-! ## Rose-tree model of a node and its subtree (rtt setter, update)

Operations that act on one node and its descendants are modelled on a rose
tree. Effects that travel upward out of the subtree (setUpdateType propagation
to ancestors, setRTTUpdates chains, renderer registration, texture loading)
are reported in effect records. -/

/-- Full per-node state of a CoreNode (props plus cached derived state). -/
structure CNode where
  props : CoreNodeProps
  updateType : Nat
  globalTransform : Option Matrix3d
  scaleRotateTransform : Option Matrix3d
  localTransform : Option Matrix3d
  renderCoords : Option RenderCoords
  renderBound : Option Bound
  strictBound : Option Bound
  preloadBound : Option Bound
  clippingRect : RectWithValid
  isRenderable : Bool
  renderState : Nat
  worldAlpha : Q
  premultipliedColorTl : Nat
  premultipliedColorTr : Nat
  premultipliedColorBl : Nat
  premultipliedColorBr : Nat
  calcZIndex : Q
  hasRTTupdates : Bool
  parentHasRenderTexture : Bool
deriving DecidableEq, Repr

inductive CTree where
  | node (root : CNode) (children : List CTree)
deriving Repr

def CTree.root : CTree → CNode
  | CTree.node n _ => n

def CTree.childList : CTree → List CTree
  | CTree.node _ cs => cs

/-- Effect of this.setUpdateType(t) on the node itself: the mask is ORed in
and, when the node sits under a render texture, its own hasRTTupdates flag is
set by the setRTTUpdates forwarding (the rest of that chain runs on the
ancestors and is reported separately). Upward Children propagation is blocked
whenever the caller is the mid-update parent, which already carries the
Children flag. -/
def selfSetUpdateType (n : CNode) (t : Nat) : CNode :=
  { n with updateType := n.updateType ||| t,
           hasRTTupdates := n.hasRTTupdates || n.parentHasRenderTexture }

/-- External effects of the rtt setter. -/
structure RttEffects where
  unloadedTexture : Bool
  removedRTTNode : Bool
  registeredRTTNode : Bool
  loadedRenderTexture : Bool
  selfMarked : Bool
deriving DecidableEq, Repr

def RttEffects.none : RttEffects :=
  ⟨false, false, false, false, false⟩

/-- Load half of the rtt setter (shared by the fresh-enable path): assign a
new RenderTexture through the texture setter (unloads any previous texture,
stores the new handle with unknown dimensions, marks IsRenderable), set
textureOptions.preload, set props.rtt and hasRTTupdates, give the node a full
update, give every direct child a full update, and register with the
renderer. -/
def rttLoad (n : CNode) (children : List CTree) : CTree × RttEffects :=
  let hadOld := n.props.texture.isSome
  let n1 : CNode := { n with props := { n.props with texture := some none } }
  let n2 := selfSetUpdateType n1 UpdateType.IsRenderable
  let newOpts : TextureOptions := { n2.props.textureOptions with preload := true }
  let n3 : CNode := { n2 with props := { n2.props with textureOptions := newOpts } }
  let n4 : CNode := { n3 with props := { n3.props with rtt := true }, hasRTTupdates := true }
  let n5 := selfSetUpdateType n4 UpdateType.All
  let newChildren := children.map fun c =>
    CTree.node (selfSetUpdateType c.root UpdateType.All) c.childList
  let anyChildPHRT := children.any fun c => c.root.parentHasRenderTexture
  let n6 : CNode := { n5 with hasRTTupdates := n5.hasRTTupdates || anyChildPHRT }
  (CTree.node n6 newChildren,
   { unloadedTexture := hadOld, removedRTTNode := false, registeredRTTNode := true,
     loadedRenderTexture := true, selfMarked := true })

/-- Translation of the rtt setter. When rtt is currently true the new value is
written; turning it off with an owned texture unloads the texture, performs a
full self update, clears parentHasRenderTexture on the direct children, and
deregisters from the renderer. Turning it off otherwise is a no-op (beyond the
value write); turning it on loads a render texture and registers. -/
def setRtt (t : CTree) (value : Bool) : CTree × RttEffects :=
  match t with
  | CTree.node n children =>
    if n.props.rtt = true then
      let n1 : CNode := { n with props := { n.props with rtt := value } }
      if value = false then
        if n1.props.texture.isSome then
          let n2 := selfSetUpdateType n1 UpdateType.All
          let newChildren := children.map fun c =>
            CTree.node { c.root with parentHasRenderTexture := false } c.childList
          (CTree.node n2 newChildren,
           { unloadedTexture := true, removedRTTNode := true,
             registeredRTTNode := false, loadedRenderTexture := false,
             selfMarked := true })
        else
          (CTree.node n1 children, RttEffects.none)
      else
        rttLoad n1 children
    else
      if value = false then (CTree.node n children, RttEffects.none)
      else rttLoad n children

/-- Baseline CNode for examples: default props, clean caches. -/
def CNode.base : CNode where
  props := CoreNodeProps.base
  updateType := 0
  globalTransform := none
  scaleRotateTransform := none
  localTransform := none
  renderCoords := none
  renderBound := none
  strictBound := none
  preloadBound := none
  clippingRect := ⟨0, 0, 0, 0, false⟩
  isRenderable := false
  renderState := 0
  worldAlpha := 1
  premultipliedColorTl := 0
  premultipliedColorTr := 0
  premultipliedColorBl := 0
  premultipliedColorBr := 0
  calcZIndex := 0
  hasRTTupdates := false
  parentHasRenderTexture := false

/-- Concrete rtt tree: an rtt root owning a render texture, with a child and a
grandchild both inside the render-texture subtree. -/
def rttCE : CTree :=
  CTree.node
    { CNode.base with props := { CoreNodeProps.base with rtt := true, texture := some none } }
    [CTree.node { CNode.base with parentHasRenderTexture := true }
      [CTree.node { CNode.base with parentHasRenderTexture := true } []]]

/-! ## Claim theorems: C8 -/

/-- Claim C8 (counterexample): toggling rtt off on the concrete tree unloads
the texture and deregisters the node, and clears parentHasRenderTexture on
the direct child — but the grandchild, a descendant, keeps the flag set,
contradicting the claim that the flag is cleared on every descendant. -/
theorem setRtt_descendants_counterexample :
    (setRtt rttCE false).2.unloadedTexture = true ∧
      (setRtt rttCE false).2.removedRTTNode = true ∧
      ((setRtt rttCE false).1.childList.map fun c => c.root.parentHasRenderTexture)
        = [false] ∧
      ((setRtt rttCE false).1.childList.map fun c =>
        c.childList.map fun g => g.root.parentHasRenderTexture) = [[true]] :=
  ⟨rfl, rfl, rfl, rfl⟩

/-- Claim C8 (amended): setting the rtt property of a node from true to false
(with the owned render texture attached, as the enable path guarantees)
unloads the node's owned render texture, marks the node for a full update
(UpdateType.All), sets parentHasRenderTexture to false on every DIRECT CHILD
of the node — grandchildren and deeper descendants are left untouched — and
deregisters the node from the renderer via removeRTTNode. -/
theorem setRtt_teardown (n : CNode) (cs : List CTree)
    (hrtt : n.props.rtt = true) (htex : n.props.texture.isSome = true) :
    (setRtt (CTree.node n cs) false).2.unloadedTexture = true ∧
      (setRtt (CTree.node n cs) false).2.removedRTTNode = true ∧
      (setRtt (CTree.node n cs) false).1.root.updateType
        = n.updateType ||| UpdateType.All ∧
      (setRtt (CTree.node n cs) false).1.root.props.rtt = false ∧
      (setRtt (CTree.node n cs) false).1.childList =
        cs.map (fun c =>
          CTree.node { c.root with parentHasRenderTexture := false } c.childList) := by
  have hc : ({ n with props := { n.props with rtt := false } } : CNode).props.texture.isSome
      = true := htex
  have hred : setRtt (CTree.node n cs) false =
      (CTree.node
        (selfSetUpdateType { n with props := { n.props with rtt := false } }
          UpdateType.All)
        (cs.map fun c =>
          CTree.node { c.root with parentHasRenderTexture := false } c.childList),
       { unloadedTexture := true, removedRTTNode := true, registeredRTTNode := false,
         loadedRenderTexture := false, selfMarked := true }) := by
    simp only [setRtt]
    rw [if_pos hrtt, if_pos hc]
    rfl
  rw [hred]
  exact ⟨rfl, rfl, rfl, rfl, rfl⟩

/-- Concrete instantiation of the C8 amended theorem on the rtt tree. -/
theorem setRtt_teardown_witness :
    rttCE.root.props.rtt = true ∧ rttCE.root.props.texture.isSome = true ∧
      (setRtt (CTree.node rttCE.root rttCE.childList) false).2.removedRTTNode = true :=
  ⟨rfl, rfl, (setRtt_teardown rttCE.root rttCE.childList rfl rfl).2.1⟩

/-! ## CoreNode.update

The per-frame update pass. The recursion into children is bounded by an
explicit step budget (one unit per tree level); any budget at least the tree
height executes exactly the source's recursion, and an exhausted budget is an
error, never a silent no-op. The source's final statement — resetting the
pending mask to None — is applied by `update` itself around `updateCore`,
which performs all the flag-ordered work. -/

namespace CoreNodeRenderState

def Init : Nat := 0
def OutOfBounds : Nat := 2
def InBounds : Nat := 4
def InViewport : Nat := 8

end CoreNodeRenderState

/-- Stage context read by update. The trig functions and the color
premultiplication are opaque library functions; Modelled from the spec: they
are pure numeric functions supplied by the environment. -/
structure Stage where
  defShaderCtr : Nat
  rootWidth : Q
  rootHeight : Q
  marginTop : Q
  marginRight : Q
  marginBottom : Q
  marginLeft : Q
  cosF : Q → Q
  sinF : Q → Q
  mergeColorAlpha : Nat → Q → Nat

/-- Parent fields read during a child's update. -/
structure PParent where
  globalTransform : Option Matrix3d
  worldAlpha : Q
  zIndex : Q
  zIndexLocked : Q
  rtt : Bool

/-- Environment of an update call: the parent's readable fields and whether
any ancestor is an rtt root (what the ParentRenderTexture walk observes). -/
structure PEnv where
  parent : Option PParent
  anyAncestorRtt : Bool

/-- Upward effects of an update call, directed at the caller and the
ancestors: sortRequested — the node asked its parent for
ZIndexSortedChildren; selfSet — at least one this.setUpdateType ran on the
node, so ancestors receive the usual Children propagation once; rttUp — a
setRTTUpdates chain reached the parent. -/
structure UpMsg where
  sortRequested : Bool
  selfSet : Bool
  rttUp : Bool
deriving DecidableEq, Repr

def UpMsg.quiet : UpMsg := ⟨false, false, false⟩

inductive UpdateErr where
  | outOfFuel
  | missingScaleRotate
  | missingLocalTransform
  | missingGlobalTransform
  | missingRenderBound
deriving DecidableEq, Repr

/-- Translation of updateScaleRotateTransform. -/
def updateScaleRotateTransformN (st : Stage) (n : CNode) : CNode :=
  let srt := (Matrix3d.rotateWith (st.cosF n.props.rotation)
    (st.sinF n.props.rotation)).scaleBy n.props.scaleX n.props.scaleY
  { n with scaleRotateTransform := some srt }

/-- Translation of updateLocalTransform, including the contain resize-mode
adjustment; asserts the scale/rotate transform and ends with
this.setUpdateType(Global). -/
def updateLocalTransformN (st : Stage) (n : CNode) : Except UpdateErr CNode :=
  match n.scaleRotateTransform with
  | none => Except.error UpdateErr.missingScaleRotate
  | some srt =>
    let pivotTranslateX := n.props.pivotX * n.props.width
    let pivotTranslateY := n.props.pivotY * n.props.height
    let mountTranslateX := n.props.mountX * n.props.width
    let mountTranslateY := n.props.mountY * n.props.height
    let lt := ((Matrix3d.translate
        (pivotTranslateX - mountTranslateX + n.props.x)
        (pivotTranslateY - mountTranslateY + n.props.y)).multiply srt).translateBy
        (-pivotTranslateX) (-pivotTranslateY)
    let lt :=
      match n.props.texture with
      | some (some dims) =>
        if n.props.textureOptions.resizeMode = some ResizeModeT.contain then
          let txAspect := dims.width / dims.height
          let nodeAspect := n.props.width / n.props.height
          if nodeAspect < txAspect then
            let scaleX := n.props.width / dims.width
            let scaledTxHeight := dims.height * scaleX
            let extraY := (n.props.height - scaledTxHeight) / 2
            (lt.translateBy 0 extraY).scaleBy 1 (scaledTxHeight / n.props.height)
          else
            let scaleY := n.props.height / dims.height
            let scaledTxWidth := dims.width * scaleY
            let extraX := (n.props.width - scaledTxWidth) / 2
            (lt.translateBy extraX 0).scaleBy (scaledTxWidth / n.props.width) 1
        else lt
      | _ => lt
    Except.ok (selfSetUpdateType { n with localTransform := some lt }
      UpdateType.Global)

/-- Translation of the Global branch body: compose the global transform via
computeGlobalTransform, recompute the render coords and the bounding rect,
then mark Clipping, RenderState and Children. -/
def globalStep (n : CNode) (env : PEnv) : Except UpdateErr CNode :=
  match n.localTransform with
  | none => Except.error UpdateErr.missingLocalTransform
  | some lt =>
    let gt := computeGlobalTransform lt
      (env.parent.map fun pp => ⟨pp.globalTransform, pp.rtt⟩)
      n.parentHasRenderTexture
    let rc := calculateRenderCoords n.props.width n.props.height gt
    let rb := updateBoundingRect gt rc
    Except.ok (selfSetUpdateType
      { n with globalTransform := some gt, renderCoords := some rc,
               renderBound := some rb }
      (UpdateType.Clipping ||| UpdateType.RenderState ||| UpdateType.Children))

/-- Translation of calculateClippingRect, followed by setUpdateType(Children)
as in the Clipping branch of update. -/
def clippingStep (n : CNode) (parentClippingRect : RectWithValid) :
    Except UpdateErr CNode :=
  match n.globalTransform with
  | none => Except.error UpdateErr.missingGlobalTransform
  | some gt =>
    let cr :=
      if gt.tb ≠ 0 ∨ gt.tc ≠ 0 then { n.clippingRect with valid := false }
      else if n.props.clipping then
        (⟨gt.tx, gt.ty, n.props.width * gt.ta, n.props.height * gt.td, true⟩ :
          RectWithValid)
      else { n.clippingRect with valid := false }
    let cr :=
      if parentClippingRect.valid ∧ cr.valid then intersectRect parentClippingRect cr
      else if parentClippingRect.valid then
        { copyRect parentClippingRect with valid := true }
      else cr
    Except.ok (selfSetUpdateType { n with clippingRect := cr } UpdateType.Children)

/-- Translation of checkRenderBounds: classify the render bound against the
strict viewport bound and the margin-expanded preload bound. -/
def checkRenderBoundsN (st : Stage) (n : CNode) (pcr : RectWithValid) :
    Except UpdateErr (CNode × Nat) :=
  match n.renderBound with
  | none => Except.error UpdateErr.missingRenderBound
  | some rb =>
    let rectW := if pcr.width = 0 then st.rootWidth else pcr.width
    let rectH := if pcr.height = 0 then st.rootHeight else pcr.height
    let strict := createBound pcr.x pcr.y (pcr.x + rectW) (pcr.y + rectH)
    if boundInsideBound rb strict then
      Except.ok ({ n with strictBound := some strict },
        CoreNodeRenderState.InViewport)
    else
      let preload := createBound (strict.x1 - st.marginLeft)
        (strict.y1 - st.marginTop) (strict.x2 + st.marginRight)
        (strict.y2 + st.marginBottom)
      if boundInsideBound rb preload then
        Except.ok ({ n with strictBound := some strict, preloadBound := some preload },
          CoreNodeRenderState.InBounds)
      else
        Except.ok ({ n with strictBound := some strict, preloadBound := some preload },
          CoreNodeRenderState.OutOfBounds)

/-- Translation of updateRenderState: store the classification only on a
transition (the transition event emission is external). -/
def updateRenderStateN (st : Stage) (n : CNode) (pcr : RectWithValid) :
    Except UpdateErr CNode :=
  match checkRenderBoundsN st n pcr with
  | Except.error e => Except.error e
  | Except.ok (n1, rs) =>
    if rs = n.renderState then Except.ok n1
    else Except.ok { n1 with renderState := rs }

/-- Translation of updateIsRenderable (setRenderableOwner is external). -/
def updateIsRenderableN (st : Stage) (n : CNode) : CNode :=
  let newIsRenderable : Bool :=
    if n.worldAlpha = 0 ∨ checkRenderProps st.defShaderCtr n.props = false then false
    else decide (CoreNodeRenderState.OutOfBounds < n.renderState)
  if n.isRenderable = newIsRenderable then n
  else { n with isRenderable := newIsRenderable }

/-- Translation of calculateZIndex: clamp to the parent's zIndex when the
parent is z-index-locked. -/
def calculateZIndexN (env : PEnv) (n : CNode) : CNode :=
  let z := n.props.zIndex
  let p := match env.parent with
    | some pp => pp.zIndex
    | none => 0
  let locked : Bool := match env.parent with
    | some pp => pp.zIndexLocked != 0
    | none => false
  let zi := if locked then (if z < p then z else p) else z
  { n with calcZIndex := zi }

/-- Translation of the PremultipliedColors branch, with the equal-colors
replication. -/
def premultStep (st : Stage) (n : CNode) : CNode :=
  let tl := st.mergeColorAlpha n.props.colorTl n.worldAlpha
  if n.props.colorTl = n.props.colorTr ∧ n.props.colorBl = n.props.colorBr ∧
      n.props.colorTl = n.props.colorBl then
    { n with premultipliedColorTl := tl, premultipliedColorTr := tl,
             premultipliedColorBl := tl, premultipliedColorBr := tl }
  else
    { n with premultipliedColorTl := tl,
             premultipliedColorTr := st.mergeColorAlpha n.props.colorTr n.worldAlpha,
             premultipliedColorBl := st.mergeColorAlpha n.props.colorBl n.worldAlpha,
             premultipliedColorBr := st.mergeColorAlpha n.props.colorBr n.worldAlpha }

/-- Stable insertion by calcZIndex (Array.prototype.sort is stable). -/
def insertByZ (c : CTree) : List CTree → List CTree
  | [] => [c]
  | d :: ds =>
    if c.root.calcZIndex ≤ d.root.calcZIndex then c :: d :: ds
    else d :: insertByZ c ds

/-- Translation of sortChildren: stable sort by calcZIndex ascending. -/
def sortChildrenByZ : List CTree → List CTree
  | [] => []
  | c :: cs => insertByZ c (sortChildrenByZ cs)

/-- Children loop of update (the body of step 12): push the accumulated child
mask into each child, skip children left with an empty mask, recurse into the
rest; collects the updated children, whether any child requested a re-sort of
this node's children, and whether any setRTTUpdates chain reached this node. -/
def updateListGo (upd : CTree → RectWithValid → Except UpdateErr (CTree × UpMsg))
    (cut : Nat) (pcr : RectWithValid) :
    List CTree → Except UpdateErr (List CTree × Bool × Bool)
  | [] => Except.ok ([], false, false)
  | c :: cs =>
    let cn1 := selfSetUpdateType c.root cut
    let childRtt0 : Bool := c.root.parentHasRenderTexture
    if cn1.updateType == 0 then
      match updateListGo upd cut pcr cs with
      | Except.error e => Except.error e
      | Except.ok (rest, srt, rtt) =>
        Except.ok (CTree.node cn1 c.childList :: rest, srt, rtt || childRtt0)
    else
      match upd (CTree.node cn1 c.childList) pcr with
      | Except.error e => Except.error e
      | Except.ok (c2, msg) =>
        match updateListGo upd cut pcr cs with
        | Except.error e => Except.error e
        | Except.ok (rest, srt, rtt) =>
          Except.ok (c2 :: rest, srt || msg.sortRequested,
            rtt || childRtt0 || msg.rttUp)

/-- Body of CoreNode.update in the source's order: ScaleRotate, Local, the
ParentRenderTexture walk, forcing children to a full update on a partial
RenderTexture update, Global, Clipping, WorldAlpha, PremultipliedColors,
RenderState, IsRenderable, CalculatedZIndex, the children recursion, and the
z-index re-sort. The final pending-mask reset is applied by `update`. -/
def updateCore (st : Stage)
    (updChild : PEnv → CTree → RectWithValid → Except UpdateErr (CTree × UpMsg))
    (env : PEnv) (n0 : CNode) (cs0 : List CTree) (parentClippingRect : RectWithValid) :
    Except UpdateErr (CNode × List CTree × UpMsg) :=
  let f1 : Bool := n0.updateType &&& UpdateType.ScaleRotate != 0
  let n1 := if f1 then
      selfSetUpdateType (updateScaleRotateTransformN st n0) UpdateType.Local
    else n0
  let f2 : Bool := n1.updateType &&& UpdateType.Local != 0
  match (if f2 then
      match updateLocalTransformN st n1 with
      | Except.error e => Except.error e
      | Except.ok m => Except.ok (selfSetUpdateType m UpdateType.Global)
    else Except.ok n1 : Except UpdateErr CNode) with
  | Except.error e => Except.error e
  | Except.ok n2 =>
    let f3 : Bool := n2.updateType &&& UpdateType.ParentRenderTexture != 0
    let n3 := if f3 then
        { n2 with parentHasRenderTexture :=
            n2.parentHasRenderTexture || env.anyAncestorRtt }
      else n2
    let f4 : Bool := ((n3.updateType ^^^ UpdateType.All) != 0) &&
      (n3.updateType &&& UpdateType.RenderTexture != 0)
    let cs4 := if f4 then
        cs0.map fun c =>
          CTree.node (selfSetUpdateType c.root UpdateType.All) c.childList
      else cs0
    let forcedNotify : Bool := f4 && !cs0.isEmpty &&
      (n3.updateType &&& UpdateType.Children == 0)
    let n4 := if forcedNotify then selfSetUpdateType n3 UpdateType.Children else n3
    let forcedRtt : Bool := f4 && cs0.any fun c => c.root.parentHasRenderTexture
    let n4b := if forcedRtt then { n4 with hasRTTupdates := true } else n4
    let f5 : Bool := n4b.updateType &&& UpdateType.Global != 0
    match (if f5 then globalStep n4b env else Except.ok n4b) with
    | Except.error e => Except.error e
    | Except.ok n5 =>
      let cut5 : Nat := if f5 then UpdateType.Global else UpdateType.NoneT
      let f6 : Bool := n5.updateType &&& UpdateType.Clipping != 0
      match (if f6 then clippingStep n5 parentClippingRect else Except.ok n5) with
      | Except.error e => Except.error e
      | Except.ok n6 =>
        let cut6 := cut5 ||| (if f6 then UpdateType.Clipping else UpdateType.NoneT)
        let f7 : Bool := n6.updateType &&& UpdateType.WorldAlpha != 0
        let wa := match env.parent with
          | some pp => pp.worldAlpha * n6.props.alpha
          | none => n6.props.alpha
        let n7 := if f7 then
            selfSetUpdateType { n6 with worldAlpha := wa }
              (UpdateType.Children ||| UpdateType.PremultipliedColors |||
                UpdateType.IsRenderable)
          else n6
        let cut7 := cut6 ||| (if f7 then UpdateType.WorldAlpha else UpdateType.NoneT)
        let f8 : Bool := n7.updateType &&& UpdateType.PremultipliedColors != 0
        let n8 := if f8 then premultStep st n7 else n7
        let f9 : Bool := n8.updateType &&& UpdateType.RenderState != 0
        match (if f9 then
            match updateRenderStateN st n8 parentClippingRect with
            | Except.error e => Except.error e
            | Except.ok m => Except.ok (selfSetUpdateType m UpdateType.IsRenderable)
          else Except.ok n8 : Except UpdateErr CNode) with
        | Except.error e => Except.error e
        | Except.ok n9 =>
          let f10 : Bool := n9.updateType &&& UpdateType.IsRenderable != 0
          let n10 := if f10 then updateIsRenderableN st n9 else n9
          let f11 : Bool := env.parent.isSome &&
            (n10.updateType &&& UpdateType.CalculatedZIndex != 0)
          let n11 := if f11 then calculateZIndexN env n10 else n10
          let f12 : Bool := (n11.updateType &&& UpdateType.Children != 0) &&
            !cs4.isEmpty && !n11.props.rtt
          let childEnv : PEnv :=
            { parent := some ⟨n11.globalTransform, n11.worldAlpha,
                n11.props.zIndex, n11.props.zIndexLocked, n11.props.rtt⟩,
              anyAncestorRtt := n11.props.rtt || env.anyAncestorRtt }
          match (if f12 then
              updateListGo (updChild childEnv) cut7 n11.clippingRect cs4
            else Except.ok (cs4, false, false) :
              Except UpdateErr (List CTree × Bool × Bool)) with
          | Except.error e => Except.error e
          | Except.ok (cs12, anySort, anyRtt) =>
            let n12 := { n11 with hasRTTupdates := n11.hasRTTupdates ||
              (anySort && n11.parentHasRenderTexture) || anyRtt }
            let effMask := n12.updateType |||
              (if anySort then UpdateType.ZIndexSortedChildren else UpdateType.NoneT)
            let cs13 := if effMask &&& UpdateType.ZIndexSortedChildren != 0 then
                sortChildrenByZ cs12
              else cs12
            let selfSetAny := f1 || f2 || forcedNotify || f5 || f6 || f7 || f9
            let rttUpAcc := (f1 && n0.parentHasRenderTexture) ||
              (f2 && n1.parentHasRenderTexture) ||
              (forcedNotify && n3.parentHasRenderTexture) ||
              (f5 && n4b.parentHasRenderTexture) ||
              (f6 && n5.parentHasRenderTexture) ||
              (f7 && n6.parentHasRenderTexture) ||
              (f9 && n8.parentHasRenderTexture) ||
              forcedRtt || (anySort && n11.parentHasRenderTexture) || anyRtt
            Except.ok (n12, cs13,
              { sortRequested := f11, selfSet := selfSetAny, rttUp := rttUpAcc })

/-- Translation of CoreNode.update. -/
def update (st : Stage) :
    Nat → PEnv → Q → CTree → RectWithValid → Except UpdateErr (CTree × UpMsg)
  | 0, _, _, _, _ => Except.error UpdateErr.outOfFuel
  | fuel + 1, env, delta, CTree.node n0 cs0, parentClippingRect =>
    match updateCore st (fun e t r => update st fuel e delta t r) env n0 cs0
        parentClippingRect with
    | Except.error e => Except.error e
    | Except.ok (n12, cs13, msg) =>
      Except.ok (CTree.node { n12 with updateType := 0 } cs13, msg)

/-! ## Claim theorems: C4 -/

/-- An update call on a node whose pending mask is empty is a complete no-op:
every branch guard is false, the children are not visited, the tree is
returned unchanged and no upward effect is reported. -/
theorem update_zero (st : Stage) (fuel : Nat) (env : PEnv) (delta : Q)
    (n : CNode) (cs : List CTree) (pcr : RectWithValid) (h : n.updateType = 0) :
    update st (fuel + 1) env delta (CTree.node n cs) pcr =
      Except.ok (CTree.node n cs, UpMsg.quiet) := by
  obtain ⟨pr, ut, gt, srt, lt, rc, rb, sb, pb, cr, ir, rs, wa, ptl, ptr, pbl,
    pbr, cz, hr, ph⟩ := n
  obtain rfl : ut = 0 := h
  simp [update, updateCore, updateListGo, UpdateType.NoneT, UpMsg.quiet]

/-- C4: update is idempotent across a pass. A completed call resets the
node's pending mask to 0; an immediately repeated call, with no intervening
mutation, is then a complete no-op: it returns exactly the tree the first
call produced — all cached transforms, render coords, bounds, clipping rect,
worldAlpha, premultiplied colors, calcZIndex, render state, renderability and
child order included — and reports no upward effect. -/
theorem update_idempotent (st : Stage) (fuel fuel2 : Nat) (env : PEnv)
    (delta delta2 : Q) (t : CTree) (pcr : RectWithValid) (r : CTree × UpMsg)
    (h : update st fuel env delta t pcr = Except.ok r) :
    r.1.root.updateType = 0 ∧
      update st (fuel2 + 1) env delta2 r.1 pcr = Except.ok (r.1, UpMsg.quiet) := by
  match fuel, t with
  | 0, t => simp [update] at h
  | f + 1, CTree.node n0 cs0 =>
    simp only [update] at h
    cases hceq : updateCore st (fun e t r => update st f e delta t r) env n0 cs0 pcr with
    | error e => rw [hceq] at h; simp at h
    | ok res =>
      obtain ⟨n12, cs13, msg⟩ := res
      rw [hceq] at h
      simp only [Except.ok.injEq] at h
      obtain rfl := h.symm
      exact ⟨rfl, update_zero st fuel2 env delta2 _ cs13 pcr rfl⟩

/-- Stage for the idempotency witness: trig and color premultiplication are
irrelevant to the exercised branches. -/
def updStW : Stage :=
  ⟨0, 1920, 1080, 0, 0, 0, 0, fun _ => 1, fun _ => 0, fun c _ => c⟩

/-- Environment for the idempotency witness: a parent with zIndex 5 that is
z-index-locked. -/
def updEnvW : PEnv := ⟨some ⟨none, 1, 5, 1, false⟩, false⟩

def updChildNodeW (z : Q) : CNode :=
  { CNode.base with props := { CoreNodeProps.base with zIndex := z }, updateType := UpdateType.CalculatedZIndex }

def updRootPropsW : CoreNodeProps :=
  { CoreNodeProps.base with zIndex := 5, zIndexLocked := 1 }

def updRootMaskW : Nat :=
  UpdateType.CalculatedZIndex ||| UpdateType.IsRenderable ||| UpdateType.Children

/-- Witness tree: a z-index-locked root pending CalculatedZIndex,
IsRenderable and Children, over two children pending CalculatedZIndex, so the
first pass exercises the z-index clamp, the renderability check, the child
recursion and the z-index re-sort. -/
def updTreeW : CTree :=
  CTree.node { CNode.base with props := updRootPropsW, updateType := updRootMaskW }
    [CTree.node (updChildNodeW 7) [], CTree.node (updChildNodeW 3) []]

def updPcrW : RectWithValid := ⟨0, 0, 0, 0, false⟩

/-- Result of the first pass over the witness tree. -/
def updResW : CTree × UpMsg :=
  (update updStW 2 updEnvW 0 updTreeW updPcrW).toOption.getD
    (CTree.node CNode.base [], UpMsg.quiet)

theorem update_idempotent_witness :
    update updStW 2 updEnvW 0 updTreeW updPcrW = Except.ok updResW ∧
      updResW.1.root.updateType = 0 ∧
      update updStW 1 updEnvW 0 updResW.1 updPcrW =
        Except.ok (updResW.1, UpMsg.quiet) := by
  have hw : update updStW 2 updEnvW 0 updTreeW updPcrW = Except.ok updResW := rfl
  exact ⟨hw, update_idempotent updStW 2 0 updEnvW 0 0 updTreeW updPcrW updResW hw⟩

end Renderer
